import Mathlib

/-!
# Verification of the Dice Card Roguelike core (`src/main.py`)

A shallow embedding of the game logic of `main.py`: the combat scene
(`DiceCardScene`), its card-effect resolver, turn flow, piles, and the shop
purchase rule (`ShopScene.attempt_purchase`).  UI layout, widget plumbing,
sounds and animations are outside the model.  Python's `random` calls are
modelled by an explicit oracle `g : Nat -> Nat` together with a cursor
`k : Nat` that is threaded through the operations (`randint(lo, hi)` becomes
`lo + g k % (hi + 1 - lo)`, always in range), and `random.shuffle` is
modelled by a parameter `sh : List Card -> List Card` (the theorems that need
it assume `sh` preserves length).
-/

namespace DiceCard

/-- A die of the combat scene: its face value and its frozen-turns counter
(`self.dice[i]["value"]` and `self.dice[i]["frozen"]` in `main.py`). -/
structure Die where
  value : Int
  frozen : Nat
deriving DecidableEq

/-- The card fields that the game logic reads (`CardData` in `main.py`);
purely visual fields (name, description, card_type) are omitted. -/
structure Card where
  effect : String
  targets : Nat
  allowMulti : Bool
deriving DecidableEq

/-- `PendingCard` from `main.py`: a played, targeted card waiting for its
die selection. -/
structure Pending where
  card : Card
  required : Nat
  selected : List Nat
  allowMulti : Bool
deriving DecidableEq

/-- The mutable state of `DiceCardScene` together with the shared
`GameState` fields (`gold`, `deck_blueprint`).  `log` models
`log_box.text` as a list of lines, `instruction` models
`instruction_text.text`, and `transitions` records the scene switches
performed by `Rs.setCurrentScene` inside `on_victory`. -/
structure CombatState where
  dice : List Die
  hand : List Card
  drawPile : List Card
  discardPile : List Card
  pending : Option Pending
  gameOver : Bool
  playerHP : Int
  playerBlock : Int
  enemyHP : Int
  enemyBlock : Int
  intentAttack : Bool
  intentValue : Int
  turnCount : Nat
  log : List String
  instruction : String
  gold : Int
  blueprint : List String
  transitions : List String
deriving DecidableEq

/-- `DiceCardScene.add_log`: append a line and keep the last four. -/
def add_log (message : String) (lg : List String) : List String :=
  let lines := lg ++ [message]
  lines.drop (lines.length - 4)

/-- `random.randint(lo, hi)` read from the oracle `g` at cursor `k`;
the result always lies in `[lo, hi]`. -/
def randIntVal (g : Nat → Nat) (lo hi k : Nat) : Nat :=
  lo + g k % (hi + 1 - lo)

/-- `randIntVal` as an integer, since die values and damage are integers. -/
def randInt (g : Nat → Nat) (lo hi k : Nat) : Int :=
  ((randIntVal g lo hi k : Nat) : Int)

/-- In-place update of the die at a given index
(`self.dice[idx][...] = ...`); out-of-range indices never occur in the
game (die indices come from the five die buttons). -/
def modifyDie (f : Die → Die) : Nat → List Die → List Die
  | _, [] => []
  | 0, d :: ds => f d :: ds
  | n + 1, d :: ds => d :: modifyDie f n ds

/-- Read `self.dice[i]["value"]`. -/
def dieValue (ds : List Die) (i : Nat) : Int :=
  (ds.getD i ⟨0, 0⟩).value

/-- Sum of all dice values (`sum(die["value"] for die in self.dice)`). -/
def diceSum (ds : List Die) : Int :=
  (ds.map Die.value).sum

/-- Sum of the odd dice values (the `odd_attack` amount). -/
def oddSum (ds : List Die) : Int :=
  ((ds.map Die.value).filter (fun v => v % 2 == 1)).sum

/-- Sum of the even dice values (the `even_shield` amount). -/
def evenSum (ds : List Die) : Int :=
  ((ds.map Die.value).filter (fun v => v % 2 == 0)).sum

/-- How many dice show the value `v` (`Counter` / generator counts). -/
def countValue (ds : List Die) (v : Int) : Nat :=
  (ds.map Die.value).count v

/-- `any(count >= 2 for count in counts.values())` for `pair_shot`. -/
def hasPair (ds : List Die) : Bool :=
  (ds.map Die.value).any (fun v => decide (2 ≤ (ds.map Die.value).count v))

/-- `straight.issubset(value_set)` for the `strafe` straights. -/
def straightIn (straight : List Int) (values : List Int) : Bool :=
  straight.all (fun x => values.contains x)

/-- `DiceCardScene.deal_damage`: enemy block absorbs damage before HP.
`if amount <= 0` only logs; otherwise `blocked = min(amount, enemy_block)`
is removed from block and the rest from HP. -/
def deal_damage (amount : Int) (source : String) (s : CombatState) : CombatState :=
  if amount ≤ 0 then
    { s with log := add_log (source ++ "! The attack had no effect.") s.log }
  else
    let blocked := min amount s.enemyBlock
    let s1 := if blocked ≠ 0 then { s with enemyBlock := s.enemyBlock - blocked } else s
    let damage := amount - blocked
    { s1 with
      enemyHP := s1.enemyHP - damage
      log := add_log (source ++ "! Removed block and dealt damage.") s1.log }

/-- The `mirror` loop: each selected die gets `value := 7 - value`. -/
def mirror_loop : List Nat → List Die → List String → List Die × List String
  | [], ds, lg => (ds, lg)
  | i :: rest, ds, lg =>
      let ds1 := modifyDie (fun d => { d with value := 7 - d.value }) i ds
      mirror_loop rest ds1 (add_log s!"Mirror Dice! Die {i + 1} flipped." lg)

/-- The `stasis` loop: each selected die gets `frozen := max(frozen, 1)`. -/
def stasis_loop : List Nat → List Die → List String → List Die × List String
  | [], ds, lg => (ds, lg)
  | i :: rest, ds, lg =>
      let ds1 := modifyDie (fun d => { d with frozen := max d.frozen 1 }) i ds
      stasis_loop rest ds1 (add_log s!"Stasis! Locked die {i + 1} until next turn." lg)

/-- The `tinker` loop: each selected die below 6 gains `+1`. -/
def tinker_loop : List Nat → List Die → List String → List Die × List String
  | [], ds, lg => (ds, lg)
  | i :: rest, ds, lg =>
      let ds1 := modifyDie (fun d => if d.value < 6 then { d with value := d.value + 1 } else d) i ds
      tinker_loop rest ds1 (add_log s!"Tinker! Die {i + 1} changed." lg)

/-- The `tinker_plus` loop: each selected die gets `value := min(6, value + 2)`. -/
def tinker_plus_loop : List Nat → List Die → List String → List Die × List String
  | [], ds, lg => (ds, lg)
  | i :: rest, ds, lg =>
      let ds1 := modifyDie (fun d => { d with value := min 6 (d.value + 2) }) i ds
      tinker_plus_loop rest ds1 (add_log s!"Tinker+! Die {i + 1} boosted." lg)

/-- The `reroll` loop: each selected die gets a fresh `randint(1, 6)`. -/
def reroll_loop (g : Nat → Nat) :
    List Nat → List Die → List String → Nat → List Die × List String × Nat
  | [], ds, lg, k => (ds, lg, k)
  | i :: rest, ds, lg, k =>
      let ds1 := modifyDie (fun d => { d with value := randInt g 1 6 k }) i ds
      reroll_loop g rest ds1 (add_log s!"Reroll! Die {i + 1} rerolled." lg) (k + 1)

/-- The `reroll_plus` loop: roll twice and keep the maximum. -/
def reroll_plus_loop (g : Nat → Nat) :
    List Nat → List Die → List String → Nat → List Die × List String × Nat
  | [], ds, lg, k => (ds, lg, k)
  | i :: rest, ds, lg, k =>
      let rollOne := randInt g 1 6 k
      let rollTwo := randInt g 1 6 (k + 1)
      let ds1 := modifyDie (fun d => { d with value := max rollOne rollTwo }) i ds
      reroll_plus_loop g rest ds1 (add_log s!"Reroll+! Die {i + 1} rerolled." lg) (k + 2)

/-- `DiceCardScene.resolve_card_effect`: the effect dispatch table,
branch for branch as in `main.py` (same guards, same order). -/
def resolve_card_effect (g : Nat → Nat) (card : Card) (selection : List Nat)
    (s : CombatState) (k : Nat) : CombatState × Nat :=
  if card.effect = "clone" ∧ 2 ≤ selection.length then
    let left := selection.getD 0 0
    let right := selection.getD 1 0
    let v := dieValue s.dice left
    ({ s with
        dice := modifyDie (fun d => { d with value := v }) right s.dice
        log := add_log "Pip Clone! Copied a die value." s.log }, k)
  else if card.effect = "mirror" ∧ selection ≠ [] then
    let r := mirror_loop selection s.dice s.log
    ({ s with dice := r.1, log := r.2 }, k)
  else if card.effect = "stasis" ∧ selection ≠ [] then
    let r := stasis_loop selection s.dice s.log
    ({ s with dice := r.1, log := r.2 }, k)
  else if card.effect = "tinker" ∧ selection ≠ [] then
    let r := tinker_loop selection s.dice s.log
    ({ s with dice := r.1, log := r.2 }, k)
  else if card.effect = "tinker_plus" ∧ selection ≠ [] then
    let r := tinker_plus_loop selection s.dice s.log
    ({ s with dice := r.1, log := r.2 }, k)
  else if card.effect = "reroll" ∧ selection ≠ [] then
    let r := reroll_loop g selection s.dice s.log k
    ({ s with dice := r.1, log := r.2.1 }, r.2.2)
  else if card.effect = "reroll_plus" ∧ selection ≠ [] then
    let r := reroll_plus_loop g selection s.dice s.log k
    ({ s with dice := r.1, log := r.2.1 }, r.2.2)
  else if card.effect = "odd_attack" then
    (deal_damage (oddSum s.dice) "Odd Attack" s, k)
  else if card.effect = "even_shield" then
    ({ s with
        playerBlock := s.playerBlock + evenSum s.dice
        log := add_log "Even Shield! Gained block." s.log }, k)
  else if card.effect = "strafe" then
    let values := s.dice.map Die.value
    let r : Int × List String :=
      if straightIn [1, 2, 3, 4, 5] values || straightIn [2, 3, 4, 5, 6] values then
        (60, add_log "Strafe! Big Straight deals 60 damage." s.log)
      else if straightIn [1, 2, 3, 4] values || straightIn [2, 3, 4, 5] values
          || straightIn [3, 4, 5, 6] values then
        (30, add_log "Strafe! Small Straight deals 30 damage." s.log)
      else
        (0, add_log "Strafe! No straight, attack failed." s.log)
    (deal_damage r.1 "Strafe" { s with log := r.2 }, k)
  else if card.effect = "strike" then
    (deal_damage (diceSum s.dice) "Strike"
      { s with log := add_log "Strike! Attacking with the dice total." s.log }, k)
  else if card.effect = "strike_plus" then
    (deal_damage (diceSum s.dice + 6) "Strike+"
      { s with log := add_log "Strike+! Dice total plus 6 bonus." s.log }, k)
  else if card.effect = "fortify" then
    ({ s with
        playerBlock := s.playerBlock + diceSum s.dice
        log := add_log "Fortify! Gained block from the total dice." s.log }, k)
  else if card.effect = "fortify_plus" then
    ({ s with
        playerBlock := s.playerBlock + (diceSum s.dice + 6)
        log := add_log "Fortify+! Dice total plus 6 bonus block." s.log }, k)
  else if card.effect = "pair_shot" then
    if hasPair s.dice then
      (deal_damage 15 "Pair Shot"
        { s with log := add_log "Pair Shot! Pair hit for 15 damage." s.log }, k)
    else
      ({ s with log := add_log "Pair Shot! No pair, attack failed." s.log }, k)
  else if card.effect = "pair_shot_plus" then
    if hasPair s.dice then
      (deal_damage 25 "Pair Shot+"
        { s with log := add_log "Pair Shot+! Enhanced pair hit for 25 damage." s.log }, k)
    else
      ({ s with log := add_log "Pair Shot+! No pair, attack failed." s.log }, k)
  else if card.effect = "one_shot" then
    (deal_damage ((countValue s.dice 1 : Nat) * 15) "One Shot"
      { s with log := add_log "One Shot! Dice showing 1 strike." s.log }, k)
  else if card.effect = "one_shot_plus" then
    (deal_damage ((countValue s.dice 1 : Nat) * 20) "One Shot+"
      { s with log := add_log "One Shot+! Dice showing 1 strike harder." s.log }, k)
  else if card.effect = "double_guard" then
    let block : Int := (countValue s.dice 2 : Nat) * 10
    if 0 < block then
      ({ s with
          playerBlock := s.playerBlock + block
          log := add_log "Double Guard! Dice showing 2 grant block." s.log }, k)
    else
      ({ s with log := add_log "Double Guard! Not enough dice showing 2." s.log }, k)
  else if card.effect = "double_guard_plus" then
    let block : Int := (countValue s.dice 2 : Nat) * 12
    if 0 < block then
      ({ s with
          playerBlock := s.playerBlock + block
          log := add_log "Double Guard+! Dice showing 2 grant block." s.log }, k)
    else
      ({ s with log := add_log "Double Guard+! Not enough dice showing 2." s.log }, k)
  else
    ({ s with log := add_log "The card effect failed to resolve." s.log }, k)

/-- `DiceCardScene.roll_dice`, one die at a time: a frozen die skips the
reroll on a natural roll and its counter decrements; otherwise the die is
rerolled, and the setup roll (`initial=True`) also clears the counter. -/
def roll_dice_list (g : Nat → Nat) (initial : Bool) :
    List Die → Nat → List Die × Nat
  | [], k => ([], k)
  | d :: ds, k =>
      if 0 < d.frozen ∧ initial = false then
        let r := roll_dice_list g initial ds k
        ({ d with frozen := d.frozen - 1 } :: r.1, r.2)
      else
        let d1 : Die := { value := randInt g 1 6 k, frozen := if initial then 0 else d.frozen }
        let r := roll_dice_list g initial ds (k + 1)
        (d1 :: r.1, r.2)

/-- `DiceCardScene.roll_dice` on the combat state. -/
def roll_dice (g : Nat → Nat) (initial : Bool) (s : CombatState) (k : Nat) :
    CombatState × Nat :=
  let r := roll_dice_list g initial s.dice k
  ({ s with dice := r.1 }, r.2)

/-- `DiceCardScene.reshuffle_discard`: move the (shuffled) discard pile
into the draw pile when the discard pile is nonempty. -/
def reshuffle_discard (sh : List Card → List Card) (s : CombatState) : CombatState :=
  if s.discardPile.isEmpty then s
  else
    { s with
      drawPile := s.drawPile ++ sh s.discardPile
      discardPile := []
      log := add_log "Shuffled the discard pile back into the deck." s.log }

/-- `DiceCardScene.draw_cards`: draw `count` cards, popping from the end of
the draw pile, reshuffling the discard pile into an empty draw pile, and
stopping early when both piles are empty. -/
def draw_cards (sh : List Card → List Card) : Nat → CombatState → CombatState
  | 0, s => s
  | n + 1, s =>
      let s1 := if s.drawPile.isEmpty then reshuffle_discard sh s else s
      match s1.drawPile.getLast? with
      | none => s1
      | some c =>
          draw_cards sh n
            { s1 with drawPile := s1.drawPile.dropLast, hand := s1.hand ++ [c] }

/-- `DiceCardScene.roll_enemy_intent`: attack 6-10 with probability 0.7,
otherwise block 4-8.  The 70% branch test consumes one oracle slot. -/
def roll_enemy_intent (g : Nat → Nat) (s : CombatState) (k : Nat) :
    CombatState × Nat :=
  let intent : Bool × Int :=
    if g k % 10 < 7 then (true, randInt g 6 10 (k + 1))
    else (false, randInt g 4 8 (k + 1))
  ({ s with intentAttack := intent.1, intentValue := intent.2 }, k + 2)

/-- Modelled from the spec: `card_library.json` is not part of the source
tree, so the catalog metadata (required target count and multi-select flag
per card key) is taken from the spec's effect table and instruction texts:
`clone` needs 2 ordered targets, `mirror`, `stasis`, `tinker`, `reroll`
and their `_plus` variants need 1+ multi-selected targets, every other
card is untargeted.  The effect id of a catalog entry is its key. -/
def CARD_LIBRARY (key : String) : Card :=
  if key = "clone" then ⟨"clone", 2, false⟩
  else if key = "mirror" then ⟨"mirror", 1, true⟩
  else if key = "stasis" then ⟨"stasis", 1, true⟩
  else if key = "tinker" then ⟨"tinker", 1, true⟩
  else if key = "tinker_plus" then ⟨"tinker_plus", 1, true⟩
  else if key = "reroll" then ⟨"reroll", 1, true⟩
  else if key = "reroll_plus" then ⟨"reroll_plus", 1, true⟩
  else ⟨key, 0, false⟩

/-- `INITIAL_DECK_BLUEPRINT` from `main.py`: three copies of each key. -/
def INITIAL_DECK_BLUEPRINT : List String :=
  List.replicate 3 "reroll" ++ List.replicate 3 "odd_attack"
    ++ List.replicate 3 "even_shield" ++ List.replicate 3 "clone"
    ++ List.replicate 3 "mirror" ++ List.replicate 3 "stasis"
    ++ List.replicate 3 "tinker" ++ List.replicate 3 "strike"
    ++ List.replicate 3 "fortify" ++ List.replicate 3 "strafe"
    ++ List.replicate 3 "pair_shot" ++ List.replicate 3 "one_shot"
    ++ List.replicate 3 "double_guard"

/-- `DiceCardScene.reset_combat`: rebuild the whole combat from the deck
blueprint, roll dice fresh, draw a full hand, roll the enemy intent. -/
def reset_combat (g : Nat → Nat) (sh : List Card → List Card) (initial : Bool)
    (s : CombatState) (k : Nat) : CombatState × Nat :=
  let s1 : CombatState :=
    { s with
      gameOver := false
      playerHP := 40
      playerBlock := 0
      enemyHP := 50
      enemyBlock := 0
      turnCount := 1
      pending := none
      hand := []
      drawPile := sh (s.blueprint.map CARD_LIBRARY)
      discardPile := []
      dice := s.dice.map (fun d => { d with frozen := 0 })
      log := ["Drag a card upward to play it."]
      instruction := "" }
  let p := roll_dice g true s1 k
  let s2 := draw_cards sh 4 p.1
  let q := roll_enemy_intent g s2 p.2
  let s3 := if initial then q.1 else { q.1 with log := add_log "A new battle begins!" q.1.log }
  (s3, q.2)

/-- `DiceCardScene.on_victory`: guarded by `game_over`; award `randint(5, 8)`
gold and switch to the shop or the upgrade scene. -/
def on_victory (g : Nat → Nat) (s : CombatState) (k : Nat) : CombatState × Nat :=
  if s.gameOver then (s, k)
  else
    let reward := randInt g 5 8 k
    let scene := if g (k + 1) % 2 = 0 then "shop" else "upgrade"
    ({ s with
        gameOver := true
        gold := s.gold + reward
        log := add_log "Defeated the enemy! Gained gold." s.log
        transitions := s.transitions ++ [scene]
        instruction := "Victory!" }, k + 2)

/-- `DiceCardScene.on_defeat`: guarded by `game_over`; terminal until reset. -/
def on_defeat (s : CombatState) : CombatState :=
  if s.gameOver then s
  else
    { s with
      gameOver := true
      log := add_log "Defeated. Press New Battle to try again." s.log
      instruction := "Defeat..." }

/-- `DiceCardScene.finalize_card_resolution`: clear the pending selection
and fire `on_victory` the instant `enemy_hp <= 0`. -/
def finalize_card_resolution (g : Nat → Nat) (s : CombatState) (k : Nat) :
    CombatState × Nat :=
  let s1 := { s with pending := none }
  if s1.enemyHP ≤ 0 then on_victory g s1 k else (s1, k)

/-- `DiceCardScene.instruction_for_card`. -/
def instruction_for_card (card : Card) : String :=
  if card.effect = "clone" then "Select the left die, then the right die."
  else if card.effect = "mirror" then
    if card.allowMulti then "Choose dice to invert, then confirm to apply."
    else "Choose a die to invert."
  else if card.effect = "stasis" then
    if card.allowMulti then "Select dice to freeze and confirm to apply."
    else "Select a die to freeze."
  else if card.effect = "tinker" then
    if card.allowMulti then "Select dice to tune up, then confirm to finish."
    else "Select a die to tune up."
  else if card.effect = "reroll" then "Choose dice to reroll, then confirm when ready."
  else "Select dice."

/-- `DiceCardScene.on_card_dropped` for the card at hand index `i`, with
`inZone` telling whether the drop landed above the play zone.  While a
pending selection is active no other hand widget reacts and the pending
card's widget was removed from the hand, so a drop is refused. -/
def on_card_dropped (g : Nat → Nat) (i : Nat) (inZone : Bool)
    (s : CombatState) (k : Nat) : CombatState × Nat :=
  if s.gameOver then (s, k)
  else if s.pending.isSome then (s, k)
  else if inZone = false then (s, k)
  else
    match s.hand.get? i with
    | none => (s, k)
    | some card =>
        let s1 := { s with hand := s.hand.eraseIdx i }
        if 0 < card.targets then
          ({ s1 with
              pending := some ⟨card, card.targets, [], card.allowMulti⟩
              instruction := instruction_for_card card
              log := add_log ("Playing a card. " ++ instruction_for_card card) s1.log }, k)
        else
          let r := resolve_card_effect g card [] s1 k
          let s2 := { r.1 with
            discardPile := r.1.discardPile ++ [card]
            instruction := "Card played!" }
          finalize_card_resolution g s2 r.2

/-- `PendingCard.has_minimum_selection`. -/
def has_minimum_selection (p : Pending) : Bool :=
  if p.required = 0 then !p.selected.isEmpty
  else decide (p.required ≤ p.selected.length)

/-- `DiceCardScene.on_die_clicked`: no pending card just logs the value;
multi-select toggles the index; single-select appends and resolves once the
required count is reached. -/
def on_die_clicked (g : Nat → Nat) (idx : Nat) (s : CombatState) (k : Nat) :
    CombatState × Nat :=
  if s.gameOver then (s, k)
  else
    match s.pending with
    | none =>
        let v := dieValue s.dice idx
        ({ s with log := add_log s!"Die {idx + 1}: {v}" s.log }, k)
    | some p =>
        if p.allowMulti then
          let sel := if idx ∈ p.selected then p.selected.erase idx
            else p.selected ++ [idx]
          let p1 : Pending := { p with selected := sel }
          let note := if idx ∈ sel then s!"Selected die {idx + 1}."
            else s!"Deselected die {idx + 1}."
          ({ s with
              pending := some p1
              instruction := if has_minimum_selection p1 then
                "Press Confirm to trigger the card." else "Select more dice."
              log := add_log note s.log }, k)
        else
          let p1 : Pending := { p with selected := p.selected ++ [idx] }
          if p1.required ≤ p1.selected.length then
            let r := resolve_card_effect g p1.card p1.selected
              { s with pending := some p1 } k
            let s2 := { r.1 with
              discardPile := r.1.discardPile ++ [p1.card]
              instruction := "Card resolved!" }
            finalize_card_resolution g s2 r.2
          else
            ({ s with pending := some p1, instruction := "Select more dice." }, k)

/-- `DiceCardScene.confirm_pending_selection`: resolve a multi-select card
once its minimum selection is reached. -/
def confirm_pending_selection (g : Nat → Nat) (s : CombatState) (k : Nat) :
    CombatState × Nat :=
  if s.gameOver then (s, k)
  else
    match s.pending with
    | none => (s, k)
    | some p =>
        if p.allowMulti = false then (s, k)
        else if has_minimum_selection p = false then
          ({ s with instruction := "Select dice to apply the effect." }, k)
        else
          let r := resolve_card_effect g p.card p.selected s k
          let s2 := { r.1 with
            discardPile := r.1.discardPile ++ [p.card]
            instruction := "Card resolved!" }
          finalize_card_resolution g s2 r.2

/-- The hand-discarding step of `DiceCardScene.end_turn`. -/
def discard_hand (s : CombatState) : CombatState :=
  if s.hand.isEmpty then s
  else { s with discardPile := s.discardPile ++ s.hand, hand := [] }

/-- The enemy-intent step of `DiceCardScene.end_turn`: an attack consumes
the full magnitude of block (clamped at 0) and deals the unblocked rest to
the player's HP; a block intent adds to the enemy's block. -/
def apply_enemy_intent (s : CombatState) : CombatState :=
  if s.intentAttack then
    let blocked := min s.intentValue s.playerBlock
    let damage := s.intentValue - blocked
    let s1 := { s with playerBlock := max 0 (s.playerBlock - s.intentValue) }
    let s2 := if 0 < damage then { s1 with playerHP := s1.playerHP - damage } else s1
    { s2 with log := add_log "Enemy attacks!" s2.log }
  else
    { s with
      enemyBlock := s.enemyBlock + s.intentValue
      log := add_log "Enemy gained block." s.log }

/-- `DiceCardScene.end_turn`: refused while a selection is pending or after
game over; otherwise discard the hand, apply the enemy intent, check for
defeat, then advance the turn (roll, draw, new intent). -/
def end_turn (g : Nat → Nat) (sh : List Card → List Card) (s : CombatState)
    (k : Nat) : CombatState × Nat :=
  if s.gameOver then (s, k)
  else if s.pending.isSome then
    ({ s with log := add_log "Finish resolving the card before ending the turn." s.log }, k)
  else
    let s1 := discard_hand s
    let s2 := apply_enemy_intent s1
    if s2.playerHP ≤ 0 then (on_defeat s2, k)
    else
      let p := roll_dice g false { s2 with turnCount := s2.turnCount + 1 } k
      let s3 := draw_cards sh 4 p.1
      let q := roll_enemy_intent g s3 p.2
      ({ q.1 with instruction := "A new turn begins." }, q.2)

/-- The public operations of the combat scene, as delivered by the UI event
loop: the New Battle button, a card drop, a die click, the Confirm button,
the End Turn button, and a draw request. -/
inductive Cmd where
  | reset
  | drop (i : Nat) (inZone : Bool)
  | dieClick (i : Nat)
  | confirm
  | endTurn
  | draw (n : Nat)
deriving DecidableEq

/-- Dispatch one public operation. -/
def applyCmd (g : Nat → Nat) (sh : List Card → List Card) (c : Cmd)
    (s : CombatState) (k : Nat) : CombatState × Nat :=
  match c with
  | .reset => reset_combat g sh false s k
  | .drop i z => on_card_dropped g i z s k
  | .dieClick i => on_die_clicked g i s k
  | .confirm => confirm_pending_selection g s k
  | .endTurn => end_turn g sh s k
  | .draw n => (draw_cards sh n s, k)

/-- A shop offer (`ShopCardItem`): its card key, display name, price and
sold flag. -/
structure ShopOffer where
  card_key : String
  card_name : String
  price : Int
  sold : Bool
deriving DecidableEq

/-- The state `ShopScene.attempt_purchase` reads and writes: the shared
wallet and deck blueprint (`GameState`) and the shop message line. -/
structure EconState where
  gold : Int
  deck_blueprint : List String
  message : String
deriving DecidableEq

/-- `ShopScene.attempt_purchase`: sold offers are ignored, short wallets
get a message, otherwise the price is deducted, the key appended to the
deck blueprint, and the offer marked sold. -/
def attempt_purchase (v : ShopOffer) (s : EconState) : EconState × ShopOffer :=
  if v.sold then (s, v)
  else if s.gold < v.price then ({ s with message := "Not enough gold." }, v)
  else
    ({ s with
        gold := s.gold - v.price
        deck_blueprint := s.deck_blueprint ++ [v.card_key]
        message := "Added " ++ v.card_name ++ " to your deck." },
      { v with sold := true })


/-- The face-value bounds invariant: every die shows a value in `[1, 6]`. -/
def valsOK (ds : List Die) : Prop :=
  ∀ d ∈ ds, 1 ≤ d.value ∧ d.value ≤ 6

instance valsOK_decidable (ds : List Die) : Decidable (valsOK ds) :=
  List.decidableBAll _ ds

/-- The conservation quantity of the deck: cards in the three piles plus
the card held by an active pending selection, against the blueprint size. -/
def conserved (s : CombatState) : Prop :=
  s.hand.length + s.drawPile.length + s.discardPile.length
    + (if s.pending.isSome then 1 else 0) = s.blueprint.length

/-- The pure dice part of the `mirror` loop (the log thread dropped). -/
def mirrorDice : List Nat → List Die → List Die
  | [], ds => ds
  | i :: rest, ds =>
      mirrorDice rest (modifyDie (fun d => { d with value := 7 - d.value }) i ds)

/-- A constant random oracle for the concrete scenarios. -/
def gZero : Nat → Nat := fun _ => 0

/-- A concrete shuffle (reversal) for the concrete scenarios. -/
def shReverse : List Card → List Card := fun l => l.reverse

/-- The identity shuffle for the concrete scenarios. -/
def shId : List Card → List Card := fun l => l

/-- A concrete combat state for the concrete scenarios: the dice show
`[2, 4, 6, 1, 3]` and the piles are empty. -/
def baseState : CombatState :=
  { dice := [⟨2, 0⟩, ⟨4, 0⟩, ⟨6, 0⟩, ⟨1, 0⟩, ⟨3, 0⟩], hand := [], drawPile := [],
    discardPile := [], pending := none, gameOver := false, playerHP := 40,
    playerBlock := 0, enemyHP := 50, enemyBlock := 0, intentAttack := true,
    intentValue := 6, turnCount := 1, log := [], instruction := "", gold := 10,
    blueprint := INITIAL_DECK_BLUEPRINT, transitions := [] }


/-! ## Preservation helpers

`pilesSig` gathers what the conservation law watches (total number of card
instances in the piles, the pending selection, the blueprint); `lifeSig`
gathers the HP/block quadruple.  The lemmas below state which operations
leave these signatures untouched. -/

/-- Card count in the three piles, the pending selection and the blueprint. -/
def pilesSig (s : CombatState) :
    Nat × Option Pending × List String :=
  (s.hand.length + s.drawPile.length + s.discardPile.length, s.pending, s.blueprint)

/-- The HP/block quadruple. -/
def lifeSig (s : CombatState) : Int × Int × Int × Int :=
  (s.playerHP, s.playerBlock, s.enemyHP, s.enemyBlock)

theorem pilesSig_deal_damage (a : Int) (src : String) (s : CombatState) :
    pilesSig (deal_damage a src s) = pilesSig s := by
  simp only [deal_damage]
  split_ifs <;> rfl

theorem pilesSig_resolve (g : Nat → Nat) (card : Card) (sel : List Nat)
    (s : CombatState) (k : Nat) :
    pilesSig (resolve_card_effect g card sel s k).1 = pilesSig s := by
  delta resolve_card_effect
  by_cases h1 : card.effect = "clone" ∧ 2 ≤ sel.length
  · rw [if_pos h1]
    first
        | rfl
        | ((try dsimp only); rw [pilesSig_deal_damage]; all_goals rfl)
        | ((try dsimp only); split_ifs <;> (first | rfl | ((try dsimp only); rw [pilesSig_deal_damage]; all_goals rfl)))
  · rw [if_neg h1]
    by_cases h2 : card.effect = "mirror" ∧ sel ≠ []
    · rw [if_pos h2]
      first
          | rfl
          | ((try dsimp only); rw [pilesSig_deal_damage]; all_goals rfl)
          | ((try dsimp only); split_ifs <;> (first | rfl | ((try dsimp only); rw [pilesSig_deal_damage]; all_goals rfl)))
    · rw [if_neg h2]
      by_cases h3 : card.effect = "stasis" ∧ sel ≠ []
      · rw [if_pos h3]
        first
            | rfl
            | ((try dsimp only); rw [pilesSig_deal_damage]; all_goals rfl)
            | ((try dsimp only); split_ifs <;> (first | rfl | ((try dsimp only); rw [pilesSig_deal_damage]; all_goals rfl)))
      · rw [if_neg h3]
        by_cases h4 : card.effect = "tinker" ∧ sel ≠ []
        · rw [if_pos h4]
          first
              | rfl
              | ((try dsimp only); rw [pilesSig_deal_damage]; all_goals rfl)
              | ((try dsimp only); split_ifs <;> (first | rfl | ((try dsimp only); rw [pilesSig_deal_damage]; all_goals rfl)))
        · rw [if_neg h4]
          by_cases h5 : card.effect = "tinker_plus" ∧ sel ≠ []
          · rw [if_pos h5]
            first
                | rfl
                | ((try dsimp only); rw [pilesSig_deal_damage]; all_goals rfl)
                | ((try dsimp only); split_ifs <;> (first | rfl | ((try dsimp only); rw [pilesSig_deal_damage]; all_goals rfl)))
          · rw [if_neg h5]
            by_cases h6 : card.effect = "reroll" ∧ sel ≠ []
            · rw [if_pos h6]
              first
                  | rfl
                  | ((try dsimp only); rw [pilesSig_deal_damage]; all_goals rfl)
                  | ((try dsimp only); split_ifs <;> (first | rfl | ((try dsimp only); rw [pilesSig_deal_damage]; all_goals rfl)))
            · rw [if_neg h6]
              by_cases h7 : card.effect = "reroll_plus" ∧ sel ≠ []
              · rw [if_pos h7]
                first
                    | rfl
                    | ((try dsimp only); rw [pilesSig_deal_damage]; all_goals rfl)
                    | ((try dsimp only); split_ifs <;> (first | rfl | ((try dsimp only); rw [pilesSig_deal_damage]; all_goals rfl)))
              · rw [if_neg h7]
                by_cases h8 : card.effect = "odd_attack"
                · rw [if_pos h8]
                  first
                      | rfl
                      | ((try dsimp only); rw [pilesSig_deal_damage]; all_goals rfl)
                      | ((try dsimp only); split_ifs <;> (first | rfl | ((try dsimp only); rw [pilesSig_deal_damage]; all_goals rfl)))
                · rw [if_neg h8]
                  by_cases h9 : card.effect = "even_shield"
                  · rw [if_pos h9]
                    first
                        | rfl
                        | ((try dsimp only); rw [pilesSig_deal_damage]; all_goals rfl)
                        | ((try dsimp only); split_ifs <;> (first | rfl | ((try dsimp only); rw [pilesSig_deal_damage]; all_goals rfl)))
                  · rw [if_neg h9]
                    by_cases h10 : card.effect = "strafe"
                    · rw [if_pos h10]
                      first
                          | rfl
                          | ((try dsimp only); rw [pilesSig_deal_damage]; all_goals rfl)
                          | ((try dsimp only); split_ifs <;> (first | rfl | ((try dsimp only); rw [pilesSig_deal_damage]; all_goals rfl)))
                    · rw [if_neg h10]
                      by_cases h11 : card.effect = "strike"
                      · rw [if_pos h11]
                        first
                            | rfl
                            | ((try dsimp only); rw [pilesSig_deal_damage]; all_goals rfl)
                            | ((try dsimp only); split_ifs <;> (first | rfl | ((try dsimp only); rw [pilesSig_deal_damage]; all_goals rfl)))
                      · rw [if_neg h11]
                        by_cases h12 : card.effect = "strike_plus"
                        · rw [if_pos h12]
                          first
                              | rfl
                              | ((try dsimp only); rw [pilesSig_deal_damage]; all_goals rfl)
                              | ((try dsimp only); split_ifs <;> (first | rfl | ((try dsimp only); rw [pilesSig_deal_damage]; all_goals rfl)))
                        · rw [if_neg h12]
                          by_cases h13 : card.effect = "fortify"
                          · rw [if_pos h13]
                            first
                                | rfl
                                | ((try dsimp only); rw [pilesSig_deal_damage]; all_goals rfl)
                                | ((try dsimp only); split_ifs <;> (first | rfl | ((try dsimp only); rw [pilesSig_deal_damage]; all_goals rfl)))
                          · rw [if_neg h13]
                            by_cases h14 : card.effect = "fortify_plus"
                            · rw [if_pos h14]
                              first
                                  | rfl
                                  | ((try dsimp only); rw [pilesSig_deal_damage]; all_goals rfl)
                                  | ((try dsimp only); split_ifs <;> (first | rfl | ((try dsimp only); rw [pilesSig_deal_damage]; all_goals rfl)))
                            · rw [if_neg h14]
                              by_cases h15 : card.effect = "pair_shot"
                              · rw [if_pos h15]
                                first
                                    | rfl
                                    | ((try dsimp only); rw [pilesSig_deal_damage]; all_goals rfl)
                                    | ((try dsimp only); split_ifs <;> (first | rfl | ((try dsimp only); rw [pilesSig_deal_damage]; all_goals rfl)))
                              · rw [if_neg h15]
                                by_cases h16 : card.effect = "pair_shot_plus"
                                · rw [if_pos h16]
                                  first
                                      | rfl
                                      | ((try dsimp only); rw [pilesSig_deal_damage]; all_goals rfl)
                                      | ((try dsimp only); split_ifs <;> (first | rfl | ((try dsimp only); rw [pilesSig_deal_damage]; all_goals rfl)))
                                · rw [if_neg h16]
                                  by_cases h17 : card.effect = "one_shot"
                                  · rw [if_pos h17]
                                    first
                                        | rfl
                                        | ((try dsimp only); rw [pilesSig_deal_damage]; all_goals rfl)
                                        | ((try dsimp only); split_ifs <;> (first | rfl | ((try dsimp only); rw [pilesSig_deal_damage]; all_goals rfl)))
                                  · rw [if_neg h17]
                                    by_cases h18 : card.effect = "one_shot_plus"
                                    · rw [if_pos h18]
                                      first
                                          | rfl
                                          | ((try dsimp only); rw [pilesSig_deal_damage]; all_goals rfl)
                                          | ((try dsimp only); split_ifs <;> (first | rfl | ((try dsimp only); rw [pilesSig_deal_damage]; all_goals rfl)))
                                    · rw [if_neg h18]
                                      by_cases h19 : card.effect = "double_guard"
                                      · rw [if_pos h19]
                                        first
                                            | rfl
                                            | ((try dsimp only); rw [pilesSig_deal_damage]; all_goals rfl)
                                            | ((try dsimp only); split_ifs <;> (first | rfl | ((try dsimp only); rw [pilesSig_deal_damage]; all_goals rfl)))
                                      · rw [if_neg h19]
                                        by_cases h20 : card.effect = "double_guard_plus"
                                        · rw [if_pos h20]
                                          first
                                              | rfl
                                              | ((try dsimp only); rw [pilesSig_deal_damage]; all_goals rfl)
                                              | ((try dsimp only); split_ifs <;> (first | rfl | ((try dsimp only); rw [pilesSig_deal_damage]; all_goals rfl)))
                                        · rw [if_neg h20]
                                          rfl

theorem pilesSig_on_victory (g : Nat → Nat) (s : CombatState) (k : Nat) :
    pilesSig (on_victory g s k).1 = pilesSig s := by
  simp only [on_victory]
  split_ifs <;> rfl

theorem pilesSig_on_defeat (s : CombatState) :
    pilesSig (on_defeat s) = pilesSig s := by
  simp only [on_defeat]
  split_ifs <;> rfl

theorem pilesSig_finalize (g : Nat → Nat) (s : CombatState) (k : Nat) :
    pilesSig (finalize_card_resolution g s k).1
      = (s.hand.length + s.drawPile.length + s.discardPile.length, none, s.blueprint) := by
  simp only [finalize_card_resolution]
  split_ifs with h
  · rw [pilesSig_on_victory]
    rfl
  · rfl

theorem pilesSig_roll_dice (g : Nat → Nat) (b : Bool) (s : CombatState) (k : Nat) :
    pilesSig (roll_dice g b s k).1 = pilesSig s := rfl

theorem pilesSig_roll_enemy_intent (g : Nat → Nat) (s : CombatState) (k : Nat) :
    pilesSig (roll_enemy_intent g s k).1 = pilesSig s := rfl

theorem pilesSig_reshuffle (sh : List Card → List Card)
    (hsh : ∀ l, (sh l).length = l.length) (s : CombatState) :
    pilesSig (reshuffle_discard sh s) = pilesSig s := by
  simp only [reshuffle_discard]
  split_ifs with h
  · rfl
  · simp [pilesSig, hsh]
    omega

theorem pilesSig_draw_cards (sh : List Card → List Card)
    (hsh : ∀ l, (sh l).length = l.length) (n : Nat) (s : CombatState) :
    pilesSig (draw_cards sh n s) = pilesSig s := by
  induction n generalizing s with
  | zero => rfl
  | succ m ih =>
      simp only [draw_cards]
      have h1 : pilesSig (if s.drawPile.isEmpty then reshuffle_discard sh s else s)
          = pilesSig s := by
        split_ifs with h
        · exact pilesSig_reshuffle sh hsh s
        · rfl
      set s1 := if s.drawPile.isEmpty then reshuffle_discard sh s else s with hs1
      rcases hlast : s1.drawPile.getLast? with _ | c
      · simpa [hlast] using h1
      · simp only [hlast]
        rw [ih]
        have hne : s1.drawPile ≠ [] := by
          intro hx
          rw [hx] at hlast
          simp at hlast
        have hlen : s1.drawPile.length ≠ 0 := by
          simpa using fun hx => hne (List.length_eq_zero.mp hx)
        simp only [pilesSig, Prod.mk.injEq] at h1 ⊢
        refine ⟨?_, h1.2.1, h1.2.2⟩
        have := h1.1
        simp [List.length_dropLast]
        omega

theorem pilesSig_discard_hand (s : CombatState) :
    pilesSig (discard_hand s) = pilesSig s := by
  simp only [discard_hand]
  split_ifs with h
  · rfl
  · simp [pilesSig]
    omega

theorem pilesSig_apply_enemy_intent (s : CombatState) :
    pilesSig (apply_enemy_intent s) = pilesSig s := by
  simp only [apply_enemy_intent]
  split_ifs <;> rfl

theorem lifeSig_roll_dice (g : Nat → Nat) (b : Bool) (s : CombatState) (k : Nat) :
    lifeSig (roll_dice g b s k).1 = lifeSig s := rfl

theorem lifeSig_roll_enemy_intent (g : Nat → Nat) (s : CombatState) (k : Nat) :
    lifeSig (roll_enemy_intent g s k).1 = lifeSig s := rfl

theorem lifeSig_reshuffle (sh : List Card → List Card) (s : CombatState) :
    lifeSig (reshuffle_discard sh s) = lifeSig s := by
  simp only [reshuffle_discard]
  split_ifs <;> rfl

theorem lifeSig_draw_cards (sh : List Card → List Card) (n : Nat) (s : CombatState) :
    lifeSig (draw_cards sh n s) = lifeSig s := by
  induction n generalizing s with
  | zero => rfl
  | succ m ih =>
      simp only [draw_cards]
      have h1 : lifeSig (if s.drawPile.isEmpty then reshuffle_discard sh s else s)
          = lifeSig s := by
        split_ifs with h
        · exact lifeSig_reshuffle sh s
        · rfl
      set s1 := if s.drawPile.isEmpty then reshuffle_discard sh s else s with hs1
      rcases hlast : s1.drawPile.getLast? with _ | c
      · simpa [hlast] using h1
      · simp only [hlast]
        rw [ih]
        exact h1

theorem lifeSig_discard_hand (s : CombatState) :
    lifeSig (discard_hand s) = lifeSig s := by
  simp only [discard_hand]
  split_ifs <;> rfl

theorem lifeSig_on_defeat (s : CombatState) :
    lifeSig (on_defeat s) = lifeSig s := by
  simp only [on_defeat]
  split_ifs <;> rfl


theorem draw_cards_playerHP (sh : List Card → List Card) (n : Nat) (s : CombatState) :
    (draw_cards sh n s).playerHP = s.playerHP :=
  congrArg (fun p => p.1) (lifeSig_draw_cards sh n s)

theorem draw_cards_playerBlock (sh : List Card → List Card) (n : Nat) (s : CombatState) :
    (draw_cards sh n s).playerBlock = s.playerBlock :=
  congrArg (fun p => p.2.1) (lifeSig_draw_cards sh n s)

theorem draw_cards_enemyHP (sh : List Card → List Card) (n : Nat) (s : CombatState) :
    (draw_cards sh n s).enemyHP = s.enemyHP :=
  congrArg (fun p => p.2.2.1) (lifeSig_draw_cards sh n s)

theorem draw_cards_enemyBlock (sh : List Card → List Card) (n : Nat) (s : CombatState) :
    (draw_cards sh n s).enemyBlock = s.enemyBlock :=
  congrArg (fun p => p.2.2.2) (lifeSig_draw_cards sh n s)

theorem on_defeat_playerHP (s : CombatState) : (on_defeat s).playerHP = s.playerHP :=
  congrArg (fun p => p.1) (lifeSig_on_defeat s)

theorem on_defeat_playerBlock (s : CombatState) : (on_defeat s).playerBlock = s.playerBlock :=
  congrArg (fun p => p.2.1) (lifeSig_on_defeat s)

theorem on_defeat_enemyHP (s : CombatState) : (on_defeat s).enemyHP = s.enemyHP :=
  congrArg (fun p => p.2.2.1) (lifeSig_on_defeat s)

theorem on_defeat_enemyBlock (s : CombatState) : (on_defeat s).enemyBlock = s.enemyBlock :=
  congrArg (fun p => p.2.2.2) (lifeSig_on_defeat s)

theorem discard_hand_playerHP (s : CombatState) : (discard_hand s).playerHP = s.playerHP := by
  simp only [discard_hand]
  split_ifs <;> rfl

theorem discard_hand_playerBlock (s : CombatState) :
    (discard_hand s).playerBlock = s.playerBlock := by
  simp only [discard_hand]
  split_ifs <;> rfl

theorem discard_hand_enemyHP (s : CombatState) : (discard_hand s).enemyHP = s.enemyHP := by
  simp only [discard_hand]
  split_ifs <;> rfl

theorem discard_hand_enemyBlock (s : CombatState) :
    (discard_hand s).enemyBlock = s.enemyBlock := by
  simp only [discard_hand]
  split_ifs <;> rfl

theorem discard_hand_intentAttack (s : CombatState) :
    (discard_hand s).intentAttack = s.intentAttack := by
  simp only [discard_hand]
  split_ifs <;> rfl

theorem discard_hand_intentValue (s : CombatState) :
    (discard_hand s).intentValue = s.intentValue := by
  simp only [discard_hand]
  split_ifs <;> rfl

/-- The enemy-intent step in isolation: what `end_turn` does to the block
and HP numbers. -/
theorem apply_enemy_intent_spec (s : CombatState) :
    (s.intentAttack = true →
      (apply_enemy_intent s).playerBlock = max 0 (s.playerBlock - s.intentValue)
      ∧ (apply_enemy_intent s).playerHP
          = s.playerHP - (s.intentValue - min s.intentValue s.playerBlock)
      ∧ (apply_enemy_intent s).enemyBlock = s.enemyBlock)
    ∧ (s.intentAttack = false →
      (apply_enemy_intent s).enemyBlock = s.enemyBlock + s.intentValue
      ∧ (apply_enemy_intent s).playerBlock = s.playerBlock
      ∧ (apply_enemy_intent s).playerHP = s.playerHP) := by
  constructor
  · intro h
    simp only [apply_enemy_intent, h, if_true]
    split_ifs with hd
    · exact ⟨rfl, rfl, rfl⟩
    · refine ⟨rfl, ?_, rfl⟩
      show s.playerHP = s.playerHP - (s.intentValue - min s.intentValue s.playerBlock)
      omega
  · intro h
    simp [apply_enemy_intent, h]



/-- `deal_damage` with a positive amount: block absorbs `min`, HP takes the rest. -/
theorem deal_damage_pos (a : Int) (src : String) (s : CombatState) (h : 0 < a) :
    (deal_damage a src s).enemyBlock = s.enemyBlock - min a s.enemyBlock
    ∧ (deal_damage a src s).enemyHP = s.enemyHP - (a - min a s.enemyBlock) := by
  simp only [deal_damage]
  split_ifs with h0 hbl
  · omega
  · constructor <;> dsimp only <;> omega
  · constructor <;> dsimp only <;> omega

/-- `deal_damage` with a non-positive amount only logs. -/
theorem deal_damage_nonpos (a : Int) (src : String) (s : CombatState) (h : a ≤ 0) :
    deal_damage a src s
      = { s with log := add_log (src ++ "! The attack had no effect.") s.log } := by
  simp [deal_damage, h]

/-! ## Claim theorems -/

/-- Claim C3: for every combat state with no pending selection and game not
over, `end_turn` applies the enemy intent: an Attack of magnitude `m` turns
`playerBlock` into `max 0 (playerBlock - m)` (the block is consumed by the
full magnitude, clamped at 0, not by the damage dealt) and lowers
`playerHP` by `m - min m playerBlock`; a Block intent adds `m` to
`enemyBlock`. -/
theorem end_turn_applies_enemy_intent (g : Nat → Nat) (sh : List Card → List Card)
    (s : CombatState) (k : Nat) (hgo : s.gameOver = false) (hpend : s.pending = none) :
    (s.intentAttack = true →
      (end_turn g sh s k).1.playerBlock = max 0 (s.playerBlock - s.intentValue)
      ∧ (end_turn g sh s k).1.playerHP
          = s.playerHP - (s.intentValue - min s.intentValue s.playerBlock))
    ∧ (s.intentAttack = false →
      (end_turn g sh s k).1.enemyBlock = s.enemyBlock + s.intentValue) := by
  have hA := discard_hand_intentAttack s
  have hV := discard_hand_intentValue s
  have hPB := discard_hand_playerBlock s
  have hHP := discard_hand_playerHP s
  have hEB := discard_hand_enemyBlock s
  simp only [end_turn, hgo, hpend, Option.isSome_none, Bool.false_eq_true, if_false]
  constructor
  · intro hatt
    have hspec := (apply_enemy_intent_spec (discard_hand s)).1 (hA.trans hatt)
    rw [hV, hPB, hHP] at hspec
    split_ifs with hdef
    · rw [on_defeat_playerBlock, on_defeat_playerHP]
      exact ⟨hspec.1, hspec.2.1⟩
    · dsimp only [roll_enemy_intent, roll_dice]
      rw [draw_cards_playerBlock, draw_cards_playerHP]
      exact ⟨hspec.1, hspec.2.1⟩
  · intro hatt
    have hspec := (apply_enemy_intent_spec (discard_hand s)).2 (hA.trans hatt)
    rw [hV, hPB, hEB] at hspec
    split_ifs with hdef
    · rw [on_defeat_enemyBlock]
      exact hspec.1
    · dsimp only [roll_enemy_intent, roll_dice]
      rw [draw_cards_enemyBlock]
      exact hspec.1

/-- Claim C4: every damage-dealing resolution with nonnegative amount `a`
follows the uniform enemy-block-absorption rule
(`blocked = min a enemyBlock`, block loses `blocked`, HP loses
`a - blocked`); in particular a strike whose dice sum to 15 against
`enemyBlock = 10` empties the block and removes 5 HP. -/
theorem enemy_block_absorption (g : Nat → Nat) (a : Int) (src : String)
    (s : CombatState) (ha : 0 ≤ a) (hb : 0 ≤ s.enemyBlock) :
    ((deal_damage a src s).enemyBlock = s.enemyBlock - min a s.enemyBlock
      ∧ (deal_damage a src s).enemyHP = s.enemyHP - (a - min a s.enemyBlock))
    ∧ (∀ card k, card.effect = "strike" → diceSum s.dice = 15 → s.enemyBlock = 10 →
        (resolve_card_effect g card [] s k).1.enemyBlock = 0
        ∧ (resolve_card_effect g card [] s k).1.enemyHP = s.enemyHP - 5) := by
  constructor
  · rcases lt_or_eq_of_le ha with hpos | hzero
    · exact deal_damage_pos a src s hpos
    · rw [deal_damage_nonpos a src s (by omega)]
      constructor <;> dsimp only <;> omega
  · intro card k hc hsum heb
    have hres : resolve_card_effect g card [] s k
        = (deal_damage (diceSum s.dice) "Strike"
            { s with log := add_log "Strike! Attacking with the dice total." s.log }, k) := by
      simp [resolve_card_effect, hc]
    rw [hres]
    dsimp only
    rw [hsum]
    obtain ⟨he1, he2⟩ := deal_damage_pos 15 "Strike"
      { s with log := add_log "Strike! Attacking with the dice total." s.log } (by norm_num)
    dsimp only at he1 he2
    constructor
    · rw [he1]
      omega
    · rw [he2]
      omega

/-- Claim C5: the targeted effects `clone`, `mirror`, `stasis`, `tinker`
and `reroll` silently no-op on an insufficient selection (fewer than 2
indices for `clone`, an empty selection for the others): the resolver
falls through to its catch-all branch and the only change is a log line. -/
theorem insufficient_selection_noop (g : Nat → Nat) (card : Card) (sel : List Nat)
    (s : CombatState) (k : Nat)
    (h : (card.effect = "clone" ∧ sel.length < 2)
      ∨ ((card.effect = "mirror" ∨ card.effect = "stasis" ∨ card.effect = "tinker"
          ∨ card.effect = "reroll") ∧ sel = [])) :
    resolve_card_effect g card sel s k
      = ({ s with log := add_log "The card effect failed to resolve." s.log }, k) := by
  rcases h with ⟨heff, hlen⟩ | ⟨heff, rfl⟩
  · have h2 : ¬ (2 ≤ sel.length) := by omega
    simp [resolve_card_effect, heff, h2]
  · rcases heff with heff | heff | heff | heff <;> simp [resolve_card_effect, heff]

/-- Claim C6: `attempt_purchase` succeeds exactly when the offer is unsold
and the wallet is at least the price; on success it deducts the price,
appends the card key to the deck blueprint and marks the offer sold (so
every later attempt on that offer returns the state untouched, regardless
of wallet); on failure the wallet and blueprint are unchanged. -/
theorem attempt_purchase_spec (v : ShopOffer) (s : EconState) :
    (v.sold = false → v.price ≤ s.gold →
        (attempt_purchase v s).1.gold = s.gold - v.price
      ∧ (attempt_purchase v s).1.deck_blueprint = s.deck_blueprint ++ [v.card_key]
      ∧ (attempt_purchase v s).2.sold = true
      ∧ (∀ s2 : EconState, attempt_purchase (attempt_purchase v s).2 s2
            = (s2, (attempt_purchase v s).2)))
    ∧ (v.sold = true ∨ s.gold < v.price →
        (attempt_purchase v s).1.gold = s.gold
      ∧ (attempt_purchase v s).1.deck_blueprint = s.deck_blueprint
      ∧ (attempt_purchase v s).2 = v) := by
  constructor
  · intro hs hg
    have hng : ¬ (s.gold < v.price) := not_lt.mpr hg
    simp [attempt_purchase, hs, hng]
  · intro h
    rcases h with h | h
    · simp [attempt_purchase, h]
    · rcases Bool.eq_false_or_eq_true v.sold with hs | hs <;>
        simp [attempt_purchase, hs, h]

/-- Claim C9: victory processing is idempotent: once `on_victory` has run,
`gameOver` guards any further call, so the second call changes nothing,
the gold reward is added exactly once and exactly one scene transition is
recorded. -/
theorem victory_idempotent (g : Nat → Nat) (s : CombatState) (k : Nat)
    (h : s.gameOver = false) :
    on_victory g (on_victory g s k).1 (on_victory g s k).2 = on_victory g s k
    ∧ (on_victory g s k).1.gold = s.gold + randInt g 5 8 k
    ∧ (on_victory g s k).1.transitions.length = s.transitions.length + 1 := by
  simp [on_victory, h]


/-- Claim C2 counterexample: on dice `[2, 4, 6, 1, 3]` the strafe effect is
not a miss: the values contain the small straight `{1, 2, 3, 4}`, so 30
damage is dealt and the enemy HP drops from 50 to 20. -/
theorem strafe_scenario_counterexample :
    (resolve_card_effect gZero ⟨"strafe", 0, false⟩ [] baseState 0).1.enemyHP = 20
    ∧ baseState.enemyHP = 50
    ∧ (resolve_card_effect gZero ⟨"strafe", 0, false⟩ [] baseState 0).1.enemyHP
        ≠ baseState.enemyHP := by
  refine ⟨by decide, by decide, by decide⟩

/-- Claim C2 amended: with dice `[2, 4, 6, 1, 3]` the strafe effect finds
the 4-value straight `{1, 2, 3, 4}` and deals 30 damage through the
uniform block-absorption rule (so enemy block loses `min 30 enemyBlock`
and enemy HP the rest), instead of dealing 0. -/
theorem strafe_hits_small_straight (g : Nat → Nat) (card : Card) (s : CombatState)
    (k : Nat) (hc : card.effect = "strafe")
    (hv : s.dice.map Die.value = [2, 4, 6, 1, 3]) :
    (resolve_card_effect g card [] s k).1.enemyBlock = s.enemyBlock - min 30 s.enemyBlock
    ∧ (resolve_card_effect g card [] s k).1.enemyHP
        = s.enemyHP - (30 - min 30 s.enemyBlock) := by
  have hres : resolve_card_effect g card [] s k
      = (deal_damage 30 "Strafe"
          { s with log := add_log "Strafe! Small Straight deals 30 damage." s.log }, k) := by
    simp [resolve_card_effect, hc, hv, straightIn]
  rw [hres]
  dsimp only
  obtain ⟨he1, he2⟩ := deal_damage_pos 30 "Strafe"
    { s with log := add_log "Strafe! Small Straight deals 30 damage." s.log } (by norm_num)
  dsimp only at he1 he2
  exact ⟨he1, he2⟩

theorem modifyDie_comm (f : Die → Die) :
    ∀ (ds : List Die) (i j : Nat),
      modifyDie f i (modifyDie f j ds) = modifyDie f j (modifyDie f i ds) := by
  intro ds
  induction ds with
  | nil => intro i j; cases i <;> cases j <;> rfl
  | cons d t ih =>
      intro i j
      cases i with
      | zero =>
          cases j with
          | zero => rfl
          | succ j => rfl
      | succ i =>
          cases j with
          | zero => rfl
          | succ j => simp only [modifyDie]; rw [ih]

theorem modifyDie_invol (f : Die → Die) (hf : ∀ d, f (f d) = d) :
    ∀ (ds : List Die) (i : Nat), modifyDie f i (modifyDie f i ds) = ds := by
  intro ds
  induction ds with
  | nil => intro i; cases i <;> rfl
  | cons d t ih =>
      intro i
      cases i with
      | zero => simp only [modifyDie]; rw [hf]
      | succ i => simp only [modifyDie]; rw [ih]

theorem mirrorDice_modify_comm :
    ∀ (sel : List Nat) (i : Nat) (ds : List Die),
      mirrorDice sel (modifyDie (fun d => { d with value := 7 - d.value }) i ds)
        = modifyDie (fun d => { d with value := 7 - d.value }) i (mirrorDice sel ds) := by
  intro sel
  induction sel with
  | nil => intro i ds; rfl
  | cons j rest ih =>
      intro i ds
      simp only [mirrorDice]
      rw [modifyDie_comm, ih]

theorem mirrorDice_invol : ∀ (sel : List Nat) (ds : List Die),
    mirrorDice sel (mirrorDice sel ds) = ds := by
  intro sel
  induction sel with
  | nil => intro ds; rfl
  | cons i rest ih =>
      intro ds
      have hf : ∀ d : Die,
          (fun d => ({ d with value := 7 - d.value } : Die))
            ((fun d => ({ d with value := 7 - d.value } : Die)) d) = d := by
        intro d
        cases d with
        | mk v fz =>
            dsimp only
            rw [Die.mk.injEq]
            exact ⟨by omega, rfl⟩
      simp only [mirrorDice]
      rw [mirrorDice_modify_comm, ih]
      exact modifyDie_invol _ hf ds i

theorem mirror_loop_fst : ∀ (sel : List Nat) (ds : List Die) (lg : List String),
    (mirror_loop sel ds lg).1 = mirrorDice sel ds := by
  intro sel
  induction sel with
  | nil => intro ds lg; rfl
  | cons i rest ih =>
      intro ds lg
      simp only [mirror_loop, mirrorDice]
      rw [ih]

/-- Claim C10: resolving the mirror effect twice with the same selection
restores every die (7 - (7 - v) = v, and flips at distinct indices
commute) and leaves HP, block, piles, pending selection, game-over flag
and gold unchanged. -/
theorem mirror_involution (g : Nat → Nat) (card : Card) (sel : List Nat)
    (s : CombatState) (k k2 : Nat) (hc : card.effect = "mirror")
    (hsel : ∀ i ∈ sel, i < 5) :
    (let s1 := (resolve_card_effect g card sel s k).1
     let s2 := (resolve_card_effect g card sel s1 k2).1
     s2.dice = s.dice ∧ s2.playerHP = s.playerHP ∧ s2.playerBlock = s.playerBlock
     ∧ s2.enemyHP = s.enemyHP ∧ s2.enemyBlock = s.enemyBlock ∧ s2.hand = s.hand
     ∧ s2.drawPile = s.drawPile ∧ s2.discardPile = s.discardPile
     ∧ s2.pending = s.pending ∧ s2.gameOver = s.gameOver ∧ s2.gold = s.gold) := by
  by_cases hnil : sel = []
  · subst hnil
    simp [resolve_card_effect, hc]
  · simp [resolve_card_effect, hc, hnil, mirror_loop_fst, mirrorDice_invol]


theorem list_getD_mem {α : Type} : ∀ (l : List α) (n : Nat) (d : α),
    n < l.length → l.getD n d ∈ l := by
  intro l
  induction l with
  | nil => intro n d h; simp at h
  | cons a t ih =>
      intro n d h
      cases n with
      | zero => simp
      | succ n =>
          simp only [List.getD_cons_succ]
          exact List.mem_cons_of_mem _ (ih n d (by simpa using h))

theorem randInt_16 (g : Nat → Nat) (k : Nat) :
    1 ≤ randInt g 1 6 k ∧ randInt g 1 6 k ≤ 6 := by
  unfold randInt randIntVal
  omega

theorem modifyDie_length (f : Die → Die) : ∀ (i : Nat) (ds : List Die),
    (modifyDie f i ds).length = ds.length := by
  intro i ds
  induction ds generalizing i with
  | nil => cases i <;> rfl
  | cons d t ih =>
      cases i with
      | zero => rfl
      | succ n => simp only [modifyDie, List.length_cons, ih]

theorem modifyDie_mem (f : Die → Die) : ∀ (i : Nat) (ds : List Die) (x : Die),
    x ∈ modifyDie f i ds → x ∈ ds ∨ ∃ d0 ∈ ds, x = f d0 := by
  intro i ds
  induction ds generalizing i with
  | nil => intro x hx; cases i <;> simp [modifyDie] at hx
  | cons d t ih =>
      intro x hx
      cases i with
      | zero =>
          rcases List.mem_cons.mp hx with hx | hx
          · exact Or.inr ⟨d, List.mem_cons_self d t, hx⟩
          · exact Or.inl (List.mem_cons_of_mem _ hx)
      | succ n =>
          rcases List.mem_cons.mp hx with hx | hx
          · exact Or.inl (hx ▸ List.mem_cons_self d t)
          · rcases ih n x hx with hm | ⟨d0, hd0, hx0⟩
            · exact Or.inl (List.mem_cons_of_mem _ hm)
            · exact Or.inr ⟨d0, List.mem_cons_of_mem _ hd0, hx0⟩

theorem valsOK_modifyDie (f : Die → Die) (i : Nat) (ds : List Die)
    (h : valsOK ds) (hf : ∀ d ∈ ds, 1 ≤ (f d).value ∧ (f d).value ≤ 6) :
    valsOK (modifyDie f i ds) := by
  intro x hx
  rcases modifyDie_mem f i ds x hx with hm | ⟨d0, hd0, rfl⟩
  · exact h x hm
  · exact hf d0 hd0

theorem dieValue_bounds (ds : List Die) (i : Nat) (hi : i < ds.length)
    (h : valsOK ds) : 1 ≤ dieValue ds i ∧ dieValue ds i ≤ 6 :=
  h _ (list_getD_mem ds i ⟨0, 0⟩ hi)

theorem mirror_loop_len : ∀ (sel : List Nat) (ds : List Die) (lg : List String),
    ((mirror_loop sel ds lg).1).length = ds.length := by
  intro sel
  induction sel with
  | nil => intro ds lg; rfl
  | cons i rest ih =>
      intro ds lg
      simp only [mirror_loop]
      rw [ih, modifyDie_length]

theorem mirror_loop_valsOK : ∀ (sel : List Nat) (ds : List Die) (lg : List String),
    valsOK ds → valsOK (mirror_loop sel ds lg).1 := by
  intro sel
  induction sel with
  | nil => intro ds lg h; exact h
  | cons i rest ih =>
      intro ds lg h
      refine ih _ _ (valsOK_modifyDie _ _ _ h ?_)
      intro d hd
      have := h d hd
      try dsimp only
      omega

theorem stasis_loop_len : ∀ (sel : List Nat) (ds : List Die) (lg : List String),
    ((stasis_loop sel ds lg).1).length = ds.length := by
  intro sel
  induction sel with
  | nil => intro ds lg; rfl
  | cons i rest ih =>
      intro ds lg
      simp only [stasis_loop]
      rw [ih, modifyDie_length]

theorem stasis_loop_valsOK : ∀ (sel : List Nat) (ds : List Die) (lg : List String),
    valsOK ds → valsOK (stasis_loop sel ds lg).1 := by
  intro sel
  induction sel with
  | nil => intro ds lg h; exact h
  | cons i rest ih =>
      intro ds lg h
      refine ih _ _ (valsOK_modifyDie _ _ _ h ?_)
      intro d hd
      have := h d hd
      try dsimp only
      omega

theorem tinker_loop_len : ∀ (sel : List Nat) (ds : List Die) (lg : List String),
    ((tinker_loop sel ds lg).1).length = ds.length := by
  intro sel
  induction sel with
  | nil => intro ds lg; rfl
  | cons i rest ih =>
      intro ds lg
      simp only [tinker_loop]
      rw [ih, modifyDie_length]

theorem tinker_loop_valsOK : ∀ (sel : List Nat) (ds : List Die) (lg : List String),
    valsOK ds → valsOK (tinker_loop sel ds lg).1 := by
  intro sel
  induction sel with
  | nil => intro ds lg h; exact h
  | cons i rest ih =>
      intro ds lg h
      refine ih _ _ (valsOK_modifyDie _ _ _ h ?_)
      intro d hd
      have := h d hd
      try dsimp only
      split_ifs <;> ((try dsimp only); omega)

theorem tinker_plus_loop_len : ∀ (sel : List Nat) (ds : List Die) (lg : List String),
    ((tinker_plus_loop sel ds lg).1).length = ds.length := by
  intro sel
  induction sel with
  | nil => intro ds lg; rfl
  | cons i rest ih =>
      intro ds lg
      simp only [tinker_plus_loop]
      rw [ih, modifyDie_length]

theorem tinker_plus_loop_valsOK : ∀ (sel : List Nat) (ds : List Die) (lg : List String),
    valsOK ds → valsOK (tinker_plus_loop sel ds lg).1 := by
  intro sel
  induction sel with
  | nil => intro ds lg h; exact h
  | cons i rest ih =>
      intro ds lg h
      refine ih _ _ (valsOK_modifyDie _ _ _ h ?_)
      intro d hd
      have := h d hd
      try dsimp only
      omega

theorem reroll_loop_len (g : Nat → Nat) :
    ∀ (sel : List Nat) (ds : List Die) (lg : List String) (k : Nat),
      ((reroll_loop g sel ds lg k).1).length = ds.length := by
  intro sel
  induction sel with
  | nil => intro ds lg k; rfl
  | cons i rest ih =>
      intro ds lg k
      simp only [reroll_loop]
      rw [ih, modifyDie_length]

theorem reroll_loop_valsOK (g : Nat → Nat) :
    ∀ (sel : List Nat) (ds : List Die) (lg : List String) (k : Nat),
      valsOK ds → valsOK (reroll_loop g sel ds lg k).1 := by
  intro sel
  induction sel with
  | nil => intro ds lg k h; exact h
  | cons i rest ih =>
      intro ds lg k h
      refine ih _ _ _ (valsOK_modifyDie _ _ _ h ?_)
      intro d hd
      have := randInt_16 g k
      try dsimp only
      omega

theorem reroll_plus_loop_len (g : Nat → Nat) :
    ∀ (sel : List Nat) (ds : List Die) (lg : List String) (k : Nat),
      ((reroll_plus_loop g sel ds lg k).1).length = ds.length := by
  intro sel
  induction sel with
  | nil => intro ds lg k; rfl
  | cons i rest ih =>
      intro ds lg k
      simp only [reroll_plus_loop]
      rw [ih, modifyDie_length]

theorem reroll_plus_loop_valsOK (g : Nat → Nat) :
    ∀ (sel : List Nat) (ds : List Die) (lg : List String) (k : Nat),
      valsOK ds → valsOK (reroll_plus_loop g sel ds lg k).1 := by
  intro sel
  induction sel with
  | nil => intro ds lg k h; exact h
  | cons i rest ih =>
      intro ds lg k h
      refine ih _ _ _ (valsOK_modifyDie _ _ _ h ?_)
      intro d hd
      have h1 := randInt_16 g k
      have h2 := randInt_16 g (k + 1)
      try dsimp only
      omega

theorem deal_damage_dice (a : Int) (src : String) (s : CombatState) :
    (deal_damage a src s).dice = s.dice := by
  simp only [deal_damage]
  split_ifs <;> rfl

theorem roll_dice_list_len (g : Nat → Nat) (b : Bool) :
    ∀ (ds : List Die) (k : Nat), ((roll_dice_list g b ds k).1).length = ds.length := by
  intro ds
  induction ds with
  | nil => intro k; rfl
  | cons d t ih =>
      intro k
      simp only [roll_dice_list]
      split_ifs <;> simp [ih]

theorem roll_dice_list_valsOK (g : Nat → Nat) (b : Bool) :
    ∀ (ds : List Die) (k : Nat), valsOK ds → valsOK (roll_dice_list g b ds k).1 := by
  intro ds
  induction ds with
  | nil => intro k h; exact h
  | cons d t ih =>
      intro k h
      have hh := h d (List.mem_cons_self d t)
      have ht : valsOK t := fun x hx => h x (List.mem_cons_of_mem _ hx)
      simp only [roll_dice_list]
      split_ifs with hc hb
      · intro x hx
        rcases List.mem_cons.mp hx with rfl | hx
        · exact hh
        · exact ih k ht x hx
      · intro x hx
        rcases List.mem_cons.mp hx with rfl | hx
        · exact randInt_16 g k
        · exact ih (k + 1) ht x hx
      · intro x hx
        rcases List.mem_cons.mp hx with rfl | hx
        · exact randInt_16 g k
        · exact ih (k + 1) ht x hx


theorem resolve_dice_ok (g : Nat → Nat) (card : Card) (sel : List Nat)
    (s : CombatState) (k : Nat) (hlen5 : s.dice.length = 5) (hok : valsOK s.dice)
    (hsel : ∀ i ∈ sel, i < 5) :
    ((resolve_card_effect g card sel s k).1).dice.length = 5
    ∧ valsOK ((resolve_card_effect g card sel s k).1).dice := by
  delta resolve_card_effect
  by_cases hc1 : card.effect = "clone" ∧ 2 ≤ sel.length
  · rw [if_pos hc1]
    dsimp only
    obtain ⟨-, hlen2⟩ := hc1
    refine ⟨?_, ?_⟩
    · rw [modifyDie_length]
      exact hlen5
    · refine valsOK_modifyDie _ _ _ hok ?_
      intro d hd
      have hmem : sel.getD 0 0 ∈ sel := list_getD_mem sel 0 0 (by omega)
      have hlt : sel.getD 0 0 < 5 := hsel _ hmem
      exact dieValue_bounds s.dice _ (by omega) hok
  · rw [if_neg hc1]
    by_cases hc2 : card.effect = "mirror" ∧ sel ≠ []
    · rw [if_pos hc2]
      dsimp only
      exact ⟨by rw [mirror_loop_len]; exact hlen5, mirror_loop_valsOK _ _ _ hok⟩
    · rw [if_neg hc2]
      by_cases hc3 : card.effect = "stasis" ∧ sel ≠ []
      · rw [if_pos hc3]
        dsimp only
        exact ⟨by rw [stasis_loop_len]; exact hlen5, stasis_loop_valsOK _ _ _ hok⟩
      · rw [if_neg hc3]
        by_cases hc4 : card.effect = "tinker" ∧ sel ≠ []
        · rw [if_pos hc4]
          dsimp only
          exact ⟨by rw [tinker_loop_len]; exact hlen5, tinker_loop_valsOK _ _ _ hok⟩
        · rw [if_neg hc4]
          by_cases hc5 : card.effect = "tinker_plus" ∧ sel ≠ []
          · rw [if_pos hc5]
            dsimp only
            exact ⟨by rw [tinker_plus_loop_len]; exact hlen5, tinker_plus_loop_valsOK _ _ _ hok⟩
          · rw [if_neg hc5]
            by_cases hc6 : card.effect = "reroll" ∧ sel ≠ []
            · rw [if_pos hc6]
              dsimp only
              exact ⟨by rw [reroll_loop_len]; exact hlen5, reroll_loop_valsOK g _ _ _ _ hok⟩
            · rw [if_neg hc6]
              by_cases hc7 : card.effect = "reroll_plus" ∧ sel ≠ []
              · rw [if_pos hc7]
                dsimp only
                exact ⟨by rw [reroll_plus_loop_len]; exact hlen5, reroll_plus_loop_valsOK g _ _ _ _ hok⟩
              · rw [if_neg hc7]
                by_cases hc8 : card.effect = "odd_attack"
                · rw [if_pos hc8]
                  first
                    | exact ⟨hlen5, hok⟩
                    | ((try dsimp only); rw [deal_damage_dice]; exact ⟨hlen5, hok⟩)
                    | ((try dsimp only); split_ifs <;>
                        (first | exact ⟨hlen5, hok⟩ | (rw [deal_damage_dice]; exact ⟨hlen5, hok⟩)))
                · rw [if_neg hc8]
                  by_cases hc9 : card.effect = "even_shield"
                  · rw [if_pos hc9]
                    first
                      | exact ⟨hlen5, hok⟩
                      | ((try dsimp only); rw [deal_damage_dice]; exact ⟨hlen5, hok⟩)
                      | ((try dsimp only); split_ifs <;>
                          (first | exact ⟨hlen5, hok⟩ | (rw [deal_damage_dice]; exact ⟨hlen5, hok⟩)))
                  · rw [if_neg hc9]
                    by_cases hc10 : card.effect = "strafe"
                    · rw [if_pos hc10]
                      first
                        | exact ⟨hlen5, hok⟩
                        | ((try dsimp only); rw [deal_damage_dice]; exact ⟨hlen5, hok⟩)
                        | ((try dsimp only); split_ifs <;>
                            (first | exact ⟨hlen5, hok⟩ | (rw [deal_damage_dice]; exact ⟨hlen5, hok⟩)))
                    · rw [if_neg hc10]
                      by_cases hc11 : card.effect = "strike"
                      · rw [if_pos hc11]
                        first
                          | exact ⟨hlen5, hok⟩
                          | ((try dsimp only); rw [deal_damage_dice]; exact ⟨hlen5, hok⟩)
                          | ((try dsimp only); split_ifs <;>
                              (first | exact ⟨hlen5, hok⟩ | (rw [deal_damage_dice]; exact ⟨hlen5, hok⟩)))
                      · rw [if_neg hc11]
                        by_cases hc12 : card.effect = "strike_plus"
                        · rw [if_pos hc12]
                          first
                            | exact ⟨hlen5, hok⟩
                            | ((try dsimp only); rw [deal_damage_dice]; exact ⟨hlen5, hok⟩)
                            | ((try dsimp only); split_ifs <;>
                                (first | exact ⟨hlen5, hok⟩ | (rw [deal_damage_dice]; exact ⟨hlen5, hok⟩)))
                        · rw [if_neg hc12]
                          by_cases hc13 : card.effect = "fortify"
                          · rw [if_pos hc13]
                            first
                              | exact ⟨hlen5, hok⟩
                              | ((try dsimp only); rw [deal_damage_dice]; exact ⟨hlen5, hok⟩)
                              | ((try dsimp only); split_ifs <;>
                                  (first | exact ⟨hlen5, hok⟩ | (rw [deal_damage_dice]; exact ⟨hlen5, hok⟩)))
                          · rw [if_neg hc13]
                            by_cases hc14 : card.effect = "fortify_plus"
                            · rw [if_pos hc14]
                              first
                                | exact ⟨hlen5, hok⟩
                                | ((try dsimp only); rw [deal_damage_dice]; exact ⟨hlen5, hok⟩)
                                | ((try dsimp only); split_ifs <;>
                                    (first | exact ⟨hlen5, hok⟩ | (rw [deal_damage_dice]; exact ⟨hlen5, hok⟩)))
                            · rw [if_neg hc14]
                              by_cases hc15 : card.effect = "pair_shot"
                              · rw [if_pos hc15]
                                first
                                  | exact ⟨hlen5, hok⟩
                                  | ((try dsimp only); rw [deal_damage_dice]; exact ⟨hlen5, hok⟩)
                                  | ((try dsimp only); split_ifs <;>
                                      (first | exact ⟨hlen5, hok⟩ | (rw [deal_damage_dice]; exact ⟨hlen5, hok⟩)))
                              · rw [if_neg hc15]
                                by_cases hc16 : card.effect = "pair_shot_plus"
                                · rw [if_pos hc16]
                                  first
                                    | exact ⟨hlen5, hok⟩
                                    | ((try dsimp only); rw [deal_damage_dice]; exact ⟨hlen5, hok⟩)
                                    | ((try dsimp only); split_ifs <;>
                                        (first | exact ⟨hlen5, hok⟩ | (rw [deal_damage_dice]; exact ⟨hlen5, hok⟩)))
                                · rw [if_neg hc16]
                                  by_cases hc17 : card.effect = "one_shot"
                                  · rw [if_pos hc17]
                                    first
                                      | exact ⟨hlen5, hok⟩
                                      | ((try dsimp only); rw [deal_damage_dice]; exact ⟨hlen5, hok⟩)
                                      | ((try dsimp only); split_ifs <;>
                                          (first | exact ⟨hlen5, hok⟩ | (rw [deal_damage_dice]; exact ⟨hlen5, hok⟩)))
                                  · rw [if_neg hc17]
                                    by_cases hc18 : card.effect = "one_shot_plus"
                                    · rw [if_pos hc18]
                                      first
                                        | exact ⟨hlen5, hok⟩
                                        | ((try dsimp only); rw [deal_damage_dice]; exact ⟨hlen5, hok⟩)
                                        | ((try dsimp only); split_ifs <;>
                                            (first | exact ⟨hlen5, hok⟩ | (rw [deal_damage_dice]; exact ⟨hlen5, hok⟩)))
                                    · rw [if_neg hc18]
                                      by_cases hc19 : card.effect = "double_guard"
                                      · rw [if_pos hc19]
                                        first
                                          | exact ⟨hlen5, hok⟩
                                          | ((try dsimp only); rw [deal_damage_dice]; exact ⟨hlen5, hok⟩)
                                          | ((try dsimp only); split_ifs <;>
                                              (first | exact ⟨hlen5, hok⟩ | (rw [deal_damage_dice]; exact ⟨hlen5, hok⟩)))
                                      · rw [if_neg hc19]
                                        by_cases hc20 : card.effect = "double_guard_plus"
                                        · rw [if_pos hc20]
                                          first
                                            | exact ⟨hlen5, hok⟩
                                            | ((try dsimp only); rw [deal_damage_dice]; exact ⟨hlen5, hok⟩)
                                            | ((try dsimp only); split_ifs <;>
                                                (first | exact ⟨hlen5, hok⟩ | (rw [deal_damage_dice]; exact ⟨hlen5, hok⟩)))
                                        · rw [if_neg hc20]
                                          exact ⟨hlen5, hok⟩

/-- Claim C7: the dice invariant (exactly 5 dice, every face value in
`[1, 6]`) is preserved by every roll and by every effect resolution with
die-button indices: mirror's `7 - v` stays in range, clone copies an
in-range value, rerolls draw from 1..6, and tinker never raises a value
above 6 in either variant. -/
theorem dice_invariant_preserved (g : Nat → Nat) (s : CombatState) (k : Nat)
    (h5 : s.dice.length = 5) (hok : valsOK s.dice) :
    (∀ b, ((roll_dice g b s k).1).dice.length = 5
      ∧ valsOK ((roll_dice g b s k).1).dice)
    ∧ (∀ card sel k2, (∀ i ∈ sel, i < 5) →
        ((resolve_card_effect g card sel s k2).1).dice.length = 5
        ∧ valsOK ((resolve_card_effect g card sel s k2).1).dice) := by
  constructor
  · intro b
    constructor
    · show ((roll_dice_list g b s.dice k).1).length = 5
      rw [roll_dice_list_len]
      exact h5
    · show valsOK (roll_dice_list g b s.dice k).1
      exact roll_dice_list_valsOK g b s.dice k hok
  · intro card sel k2 hsel
    exact resolve_dice_ok g card sel s k2 h5 hok hsel


theorem roll_dice_dice (g : Nat → Nat) (b : Bool) (s : CombatState) (k : Nat) :
    ((roll_dice g b s k).1).dice = (roll_dice_list g b s.dice k).1 := rfl

theorem roll_dice_list_natural (g : Nat → Nat) :
    ∀ (ds : List Die) (k i : Nat), i < ds.length →
      ((0 < (ds.getD i ⟨0, 0⟩).frozen →
          (((roll_dice_list g false ds k).1).getD i ⟨0, 0⟩).value
              = (ds.getD i ⟨0, 0⟩).value
          ∧ (((roll_dice_list g false ds k).1).getD i ⟨0, 0⟩).frozen
              = (ds.getD i ⟨0, 0⟩).frozen - 1)
      ∧ ((ds.getD i ⟨0, 0⟩).frozen = 0 →
          (((roll_dice_list g false ds k).1).getD i ⟨0, 0⟩).frozen = 0
          ∧ ∃ j, (((roll_dice_list g false ds k).1).getD i ⟨0, 0⟩).value
              = randInt g 1 6 j)) := by
  intro ds
  induction ds with
  | nil => intro k i h; simp at h
  | cons d t ih =>
      intro k i h
      simp only [roll_dice_list]
      by_cases hf : 0 < d.frozen
      · rw [if_pos ⟨hf, by simp⟩]
        cases i with
        | zero =>
            simp only [List.getD_cons_zero]
            constructor
            · intro _
              exact ⟨by simp, by simp⟩
            · intro h0
              omega
        | succ n =>
            simp only [List.getD_cons_succ]
            exact ih k n (by simpa using h)
      · rw [if_neg (by simp [hf])]
        cases i with
        | zero =>
            simp only [List.getD_cons_zero]
            constructor
            · intro h0
              omega
            · intro h0
              refine ⟨by simp [h0], ⟨k, by simp⟩⟩
        | succ n =>
            simp only [List.getD_cons_succ]
            exact ih (k + 1) n (by simpa using h)

theorem roll_dice_list_setup (g : Nat → Nat) :
    ∀ (ds : List Die) (k i : Nat), i < ds.length →
      (((roll_dice_list g true ds k).1).getD i ⟨0, 0⟩).frozen = 0
      ∧ ∃ j, (((roll_dice_list g true ds k).1).getD i ⟨0, 0⟩).value
          = randInt g 1 6 j := by
  intro ds
  induction ds with
  | nil => intro k i h; simp at h
  | cons d t ih =>
      intro k i h
      simp only [roll_dice_list]
      rw [if_neg (by simp)]
      cases i with
      | zero =>
          simp only [List.getD_cons_zero]
          refine ⟨by simp, ⟨k, by simp⟩⟩
      | succ n =>
          simp only [List.getD_cons_succ]
          exact ih (k + 1) n (by simpa using h)

/-- Claim C8: a die with `frozenTurns > 0` keeps its face value across one
natural roll while its counter decrements by one; a die whose counter is 0
is rerolled by the natural roll; and the setup roll (`initial=True`)
rerolls every die and clears its freeze counter. -/
theorem frozen_die_roll_semantics (g : Nat → Nat) (s : CombatState) (k i : Nat)
    (hi : i < s.dice.length) :
    (let d := s.dice.getD i ⟨0, 0⟩
     let dNat := ((roll_dice g false s k).1).dice.getD i ⟨0, 0⟩
     let dSetup := ((roll_dice g true s k).1).dice.getD i ⟨0, 0⟩
     (0 < d.frozen → dNat.value = d.value ∧ dNat.frozen = d.frozen - 1)
     ∧ (d.frozen = 0 → dNat.frozen = 0 ∧ ∃ j, dNat.value = randInt g 1 6 j)
     ∧ (dSetup.frozen = 0 ∧ ∃ j, dSetup.value = randInt g 1 6 j)) := by
  have hnat := roll_dice_list_natural g s.dice k i hi
  have hset := roll_dice_list_setup g s.dice k i hi
  simp only [roll_dice_dice]
  exact ⟨hnat.1, hnat.2, hset⟩


theorem pilesSig_eq_elim {t s : CombatState} (h : pilesSig t = pilesSig s) :
    t.hand.length + t.drawPile.length + t.discardPile.length
      = s.hand.length + s.drawPile.length + s.discardPile.length
    ∧ t.pending = s.pending ∧ t.blueprint = s.blueprint := by
  simp only [pilesSig, Prod.mk.injEq] at h
  exact h

theorem conserved_of_pilesSig {t s : CombatState} (h : pilesSig t = pilesSig s)
    (hc : conserved s) : conserved t := by
  obtain ⟨h1, h2, h3⟩ := pilesSig_eq_elim h
  unfold conserved at hc ⊢
  rw [h2, h3]
  omega

theorem conserved_mk_like {s : CombatState} (t : CombatState) (h : conserved s)
    (hh : t.hand = s.hand) (hd : t.drawPile = s.drawPile)
    (hdc : t.discardPile = s.discardPile) (hp : t.pending = s.pending)
    (hb : t.blueprint = s.blueprint) : conserved t := by
  unfold conserved at h ⊢
  rw [hh, hd, hdc, hp, hb]
  exact h

theorem conserved_finalize (g : Nat → Nat) (s : CombatState) (k : Nat)
    (h : s.hand.length + s.drawPile.length + s.discardPile.length
        = s.blueprint.length) :
    conserved (finalize_card_resolution g s k).1 := by
  have hf := pilesSig_finalize g s k
  simp only [pilesSig, Prod.mk.injEq] at hf
  obtain ⟨h1, h2, h3⟩ := hf
  unfold conserved
  rw [h2, h3]
  simp only [Option.isSome_none, Bool.false_eq_true, if_false]
  omega

theorem conserved_resolve_discard_finalize (g : Nat → Nat) (card : Card)
    (sel : List Nat) (s0 : CombatState) (k : Nat) (str : String)
    (h : s0.hand.length + s0.drawPile.length + s0.discardPile.length + 1
        = s0.blueprint.length) :
    conserved (finalize_card_resolution g
      { (resolve_card_effect g card sel s0 k).1 with
        discardPile := (resolve_card_effect g card sel s0 k).1.discardPile ++ [card]
        instruction := str } (resolve_card_effect g card sel s0 k).2).1 := by
  obtain ⟨h1, h2, h3⟩ := pilesSig_eq_elim (pilesSig_resolve g card sel s0 k)
  apply conserved_finalize
  dsimp only
  simp only [List.length_append, List.length_cons, List.length_nil, h3]
  omega

/-- Claim C1 counterexample: right after a targeted card (here a `reroll`)
is dropped from the hand, the card is held by the pending selection and
sits in none of the three piles, so draw + discard + hand is one short of
the blueprint size even though the combat just started from
`reset_combat` on the initial deck. -/
theorem conservation_pending_counterexample :
    (let r := reset_combat gZero shReverse true baseState 0
     let s2 := (on_card_dropped gZero 0 true r.1 r.2).1
     s2.pending.isSome = true
     ∧ s2.hand.length + s2.drawPile.length + s2.discardPile.length
         ≠ s2.blueprint.length) := by
  constructor
  · decide
  · decide

/-- Claim C1 amended: for every public operation, the count
draw + discard + hand plus one for an active pending selection equals the
DeckBlueprint size; `reset_combat` establishes this and every other
operation preserves it, so plain draw + discard + hand equals the
blueprint size exactly when no targeted card is pending resolution. -/
theorem conservation_law_amended (g : Nat → Nat) (sh : List Card → List Card)
    (hsh : ∀ l, (sh l).length = l.length) (c : Cmd) (s : CombatState) (k : Nat)
    (h : c = Cmd.reset ∨ conserved s) :
    conserved (applyCmd g sh c s k).1 := by
  cases c with
  | reset =>
      show conserved (reset_combat g sh false s k).1
      have base : conserved
          { s with
            gameOver := false
            playerHP := 40
            playerBlock := 0
            enemyHP := 50
            enemyBlock := 0
            turnCount := 1
            pending := none
            hand := []
            drawPile := sh (s.blueprint.map CARD_LIBRARY)
            discardPile := []
            dice := s.dice.map (fun d => { d with frozen := 0 })
            log := ["Drag a card upward to play it."]
            instruction := "" } := by
        unfold conserved
        simp [hsh]
      show conserved (draw_cards sh 4 ((roll_dice g true
          { s with
            gameOver := false
            playerHP := 40
            playerBlock := 0
            enemyHP := 50
            enemyBlock := 0
            turnCount := 1
            pending := none
            hand := []
            drawPile := sh (s.blueprint.map CARD_LIBRARY)
            discardPile := []
            dice := s.dice.map (fun d => { d with frozen := 0 })
            log := ["Drag a card upward to play it."]
            instruction := "" } k).1))
      refine conserved_of_pilesSig (pilesSig_draw_cards sh hsh 4 _) ?_
      exact conserved_of_pilesSig (pilesSig_roll_dice g true _ k) base
  | drop i z =>
      rcases h with h | h
      · exact Cmd.noConfusion h
      show conserved (on_card_dropped g i z s k).1
      unfold on_card_dropped
      split_ifs with hgo hpend hz
      · exact h
      · exact h
      · exact h
      · have hpn : s.pending = none :=
          Option.not_isSome_iff_eq_none.mp (by simpa using hpend)
        rcases hget : s.hand.get? i with _ | card
        · simp only [hget]
          exact h
        · simp only [hget]
          have hlt : i < s.hand.length := by
            rcases List.get?_eq_some.mp hget with ⟨hl, -⟩
            exact hl
          have hsum : s.hand.length + s.drawPile.length + s.discardPile.length
              = s.blueprint.length := by
            unfold conserved at h
            rw [hpn] at h
            simpa using h
          have hle := List.length_eraseIdx_add_one hlt
          split_ifs with htgt
          · unfold conserved
            dsimp only
            simp only [Option.isSome_some, if_true]
            omega
          · apply conserved_resolve_discard_finalize
            dsimp only
            omega
  | dieClick i =>
      rcases h with h | h
      · exact Cmd.noConfusion h
      show conserved (on_die_clicked g i s k).1
      unfold on_die_clicked
      split_ifs with hgo
      · exact h
      · rcases hp : s.pending with _ | p
        · simp only [hp]
          exact conserved_mk_like _ h rfl rfl rfl (by simp [hp]) rfl
        · simp only [hp]
          have hsum : s.hand.length + s.drawPile.length + s.discardPile.length + 1
              = s.blueprint.length := by
            unfold conserved at h
            rw [hp] at h
            simpa using h
          by_cases hmulti : p.allowMulti = true
          · rw [if_pos hmulti]
            unfold conserved
            dsimp only
            simp only [Option.isSome_some, if_true]
            omega
          · rw [if_neg hmulti]
            split_ifs with hreq
            · apply conserved_resolve_discard_finalize
              dsimp only
              omega
            · unfold conserved
              dsimp only
              simp only [Option.isSome_some, if_true]
              omega
  | confirm =>
      rcases h with h | h
      · exact Cmd.noConfusion h
      show conserved (confirm_pending_selection g s k).1
      unfold confirm_pending_selection
      split_ifs with hgo
      · exact h
      · rcases hp : s.pending with _ | p
        · simp only [hp]
          exact conserved_mk_like _ h rfl rfl rfl (by simp [hp]) rfl
        · simp only [hp]
          have hsum : s.hand.length + s.drawPile.length + s.discardPile.length + 1
              = s.blueprint.length := by
            unfold conserved at h
            rw [hp] at h
            simpa using h
          split_ifs with hmulti hmin
          · exact conserved_mk_like _ h rfl rfl rfl (by simp [hp]) rfl
          · exact conserved_mk_like _ h rfl rfl rfl (by simp [hp]) rfl
          · apply conserved_resolve_discard_finalize
            omega
  | endTurn =>
      rcases h with h | h
      · exact Cmd.noConfusion h
      show conserved (end_turn g sh s k).1
      unfold end_turn
      dsimp only
      split_ifs with hgo hpend hdef
      · exact h
      · exact h
      · exact conserved_of_pilesSig (pilesSig_on_defeat (apply_enemy_intent (discard_hand s)))
          (conserved_of_pilesSig (pilesSig_apply_enemy_intent (discard_hand s))
            (conserved_of_pilesSig (pilesSig_discard_hand s) h))
      · show conserved (draw_cards sh 4 ((roll_dice g false
            { apply_enemy_intent (discard_hand s) with
              turnCount := (apply_enemy_intent (discard_hand s)).turnCount + 1 } k).1))
        refine conserved_of_pilesSig (pilesSig_draw_cards sh hsh 4 _) ?_
        refine conserved_of_pilesSig (pilesSig_roll_dice g false _ k) ?_
        exact conserved_of_pilesSig (pilesSig_apply_enemy_intent (discard_hand s))
          (conserved_of_pilesSig (pilesSig_discard_hand s) h)
  | draw n =>
      rcases h with h | h
      · exact Cmd.noConfusion h
      exact conserved_of_pilesSig (pilesSig_draw_cards sh hsh n s) h


/-! ## Witnesses: each guarded claim theorem applied at a concrete input -/

/-- Witness for the amended conservation law: the New Battle operation on
the initial deck establishes the conservation quantity. -/
theorem conservation_law_amended_witness :
    (∀ l, (shId l).length = l.length)
    ∧ (Cmd.reset = Cmd.reset ∨ conserved baseState)
    ∧ conserved (applyCmd gZero shId Cmd.reset baseState 0).1 :=
  ⟨fun _ => rfl, Or.inl rfl,
    conservation_law_amended gZero shId (fun _ => rfl) Cmd.reset baseState 0 (Or.inl rfl)⟩

/-- Witness for the amended strafe claim at the scenario's dice. -/
theorem strafe_hits_small_straight_witness :
    (⟨"strafe", 0, false⟩ : Card).effect = "strafe"
    ∧ baseState.dice.map Die.value = [2, 4, 6, 1, 3]
    ∧ (resolve_card_effect gZero ⟨"strafe", 0, false⟩ [] baseState 0).1.enemyBlock
        = baseState.enemyBlock - min 30 baseState.enemyBlock
    ∧ (resolve_card_effect gZero ⟨"strafe", 0, false⟩ [] baseState 0).1.enemyHP
        = baseState.enemyHP - (30 - min 30 baseState.enemyBlock) :=
  ⟨rfl, by decide,
    (strafe_hits_small_straight gZero ⟨"strafe", 0, false⟩ baseState 0 rfl (by decide)).1,
    (strafe_hits_small_straight gZero ⟨"strafe", 0, false⟩ baseState 0 rfl (by decide)).2⟩

/-- Witness for the end-turn intent application on a concrete attack. -/
theorem end_turn_applies_enemy_intent_witness :
    baseState.gameOver = false ∧ baseState.pending = none
    ∧ baseState.intentAttack = true
    ∧ (end_turn gZero shId baseState 0).1.playerBlock
        = max 0 (baseState.playerBlock - baseState.intentValue)
    ∧ (end_turn gZero shId baseState 0).1.playerHP
        = baseState.playerHP
          - (baseState.intentValue - min baseState.intentValue baseState.playerBlock) :=
  ⟨rfl, rfl, rfl,
    ((end_turn_applies_enemy_intent gZero shId baseState 0 rfl rfl).1 rfl).1,
    ((end_turn_applies_enemy_intent gZero shId baseState 0 rfl rfl).1 rfl).2⟩

/-- Witness for the block-absorption rule: 15 damage against 10 block. -/
theorem enemy_block_absorption_witness :
    (0 : Int) ≤ 15 ∧ (0 : Int) ≤ ({ baseState with enemyBlock := 10 } : CombatState).enemyBlock
    ∧ (deal_damage 15 "Strike" { baseState with enemyBlock := 10 }).enemyBlock
        = ({ baseState with enemyBlock := 10 } : CombatState).enemyBlock
          - min 15 ({ baseState with enemyBlock := 10 } : CombatState).enemyBlock
    ∧ (deal_damage 15 "Strike" { baseState with enemyBlock := 10 }).enemyHP
        = ({ baseState with enemyBlock := 10 } : CombatState).enemyHP
          - (15 - min 15 ({ baseState with enemyBlock := 10 } : CombatState).enemyBlock) :=
  ⟨by decide, by decide,
    ((enemy_block_absorption gZero 15 "Strike" { baseState with enemyBlock := 10 }
        (by decide) (by decide)).1).1,
    ((enemy_block_absorption gZero 15 "Strike" { baseState with enemyBlock := 10 }
        (by decide) (by decide)).1).2⟩

/-- Witness for the insufficient-selection no-op: mirror with no targets. -/
theorem insufficient_selection_noop_witness :
    ((⟨"mirror", 1, true⟩ : Card).effect = "mirror" ∧ ([] : List Nat) = [])
    ∧ resolve_card_effect gZero ⟨"mirror", 1, true⟩ [] baseState 0
        = ({ baseState with
              log := add_log "The card effect failed to resolve." baseState.log }, 0) :=
  ⟨⟨rfl, rfl⟩,
    insufficient_selection_noop gZero ⟨"mirror", 1, true⟩ [] baseState 0
      (Or.inr ⟨Or.inl rfl, rfl⟩)⟩

/-- Witness for the shop purchase rule: wallet 5, price 5. -/
theorem attempt_purchase_spec_witness :
    (⟨"strike", "Strike", 5, false⟩ : ShopOffer).sold = false
    ∧ (⟨"strike", "Strike", 5, false⟩ : ShopOffer).price
        ≤ (⟨5, [], ""⟩ : EconState).gold
    ∧ (attempt_purchase ⟨"strike", "Strike", 5, false⟩ ⟨5, [], ""⟩).1.gold
        = (⟨5, [], ""⟩ : EconState).gold - (⟨"strike", "Strike", 5, false⟩ : ShopOffer).price
    ∧ (attempt_purchase ⟨"strike", "Strike", 5, false⟩ ⟨5, [], ""⟩).2.sold = true :=
  ⟨rfl, by decide,
    ((attempt_purchase_spec ⟨"strike", "Strike", 5, false⟩ ⟨5, [], ""⟩).1 rfl (by decide)).1,
    ((attempt_purchase_spec ⟨"strike", "Strike", 5, false⟩ ⟨5, [], ""⟩).1 rfl (by decide)).2.2.1⟩

/-- Witness for the dice invariant on a concrete state and mirror play. -/
theorem dice_invariant_preserved_witness :
    baseState.dice.length = 5 ∧ valsOK baseState.dice
    ∧ (∀ i ∈ ([0, 1] : List Nat), i < 5)
    ∧ ((resolve_card_effect gZero ⟨"mirror", 1, true⟩ [0, 1] baseState 0).1).dice.length = 5
    ∧ valsOK ((resolve_card_effect gZero ⟨"mirror", 1, true⟩ [0, 1] baseState 0).1).dice :=
  ⟨by decide, by decide, by decide,
    ((dice_invariant_preserved gZero baseState 0 (by decide) (by decide)).2
      ⟨"mirror", 1, true⟩ [0, 1] 0 (by decide)).1,
    ((dice_invariant_preserved gZero baseState 0 (by decide) (by decide)).2
      ⟨"mirror", 1, true⟩ [0, 1] 0 (by decide)).2⟩

/-- Witness for the frozen-die roll semantics: a die frozen for one turn
keeps its value and thaws. -/
theorem frozen_die_roll_semantics_witness :
    (0 : Nat) < ({ baseState with
        dice := [⟨3, 1⟩, ⟨1, 0⟩, ⟨1, 0⟩, ⟨1, 0⟩, ⟨1, 0⟩] } : CombatState).dice.length
    ∧ 0 < (({ baseState with
        dice := [⟨3, 1⟩, ⟨1, 0⟩, ⟨1, 0⟩, ⟨1, 0⟩, ⟨1, 0⟩] } : CombatState).dice.getD 0 ⟨0, 0⟩).frozen
    ∧ ((((roll_dice gZero false { baseState with
          dice := [⟨3, 1⟩, ⟨1, 0⟩, ⟨1, 0⟩, ⟨1, 0⟩, ⟨1, 0⟩] } 0).1).dice.getD 0 ⟨0, 0⟩).value
        = (({ baseState with
          dice := [⟨3, 1⟩, ⟨1, 0⟩, ⟨1, 0⟩, ⟨1, 0⟩, ⟨1, 0⟩] } : CombatState).dice.getD 0 ⟨0, 0⟩).value
      ∧ (((roll_dice gZero false { baseState with
          dice := [⟨3, 1⟩, ⟨1, 0⟩, ⟨1, 0⟩, ⟨1, 0⟩, ⟨1, 0⟩] } 0).1).dice.getD 0 ⟨0, 0⟩).frozen
        = (({ baseState with
          dice := [⟨3, 1⟩, ⟨1, 0⟩, ⟨1, 0⟩, ⟨1, 0⟩, ⟨1, 0⟩] } : CombatState).dice.getD 0 ⟨0, 0⟩).frozen - 1) :=
  ⟨by decide, by decide,
    (frozen_die_roll_semantics gZero
      { baseState with dice := [⟨3, 1⟩, ⟨1, 0⟩, ⟨1, 0⟩, ⟨1, 0⟩, ⟨1, 0⟩] } 0 0
      (by decide)).1 (by decide)⟩

/-- Witness for victory idempotence at a live combat state. -/
theorem victory_idempotent_witness :
    baseState.gameOver = false
    ∧ (on_victory gZero baseState 0).1.gold = baseState.gold + randInt gZero 5 8 0 :=
  ⟨rfl, (victory_idempotent gZero baseState 0 rfl).2.1⟩

/-- Witness for the mirror involution on dice 0 and 1. -/
theorem mirror_involution_witness :
    (⟨"mirror", 1, true⟩ : Card).effect = "mirror"
    ∧ (∀ i ∈ ([0, 1] : List Nat), i < 5)
    ∧ ((resolve_card_effect gZero ⟨"mirror", 1, true⟩ [0, 1]
          ((resolve_card_effect gZero ⟨"mirror", 1, true⟩ [0, 1] baseState 0).1) 0).1).dice
        = baseState.dice :=
  ⟨rfl, by decide,
    (mirror_involution gZero ⟨"mirror", 1, true⟩ [0, 1] baseState 0 0 rfl (by decide)).1⟩

end DiceCard
